import Mathlib

/-!
# Verification of the healthchecksio client (pkg/healthchecksio/client.go)

A shallow embedding of the request/response pipeline of the Go package
`healthchecksio` (`pkg/healthchecksio/client.go`), together with theorems
settling the specification's claims about it.

Conventions of the embedding:
* JSON documents are represented by an abstract syntax tree (`Json`);
  JSON numbers are modelled as integers (no claim concerns fractional
  values).  `encoding/json` marshalling/unmarshalling of the request and
  response structs is translated field by field, including the `omitempty`
  and zero-value-default semantics.
* Paths and URL manipulation are modelled at the level of character
  lists.  `net/url.JoinPath`, `path.Join` and `path.Clean` (standard
  library collaborators of `buildAddress`, not part of this repository)
  are translated from their documented semantics: components are split at
  slashes, `.` and `..` are resolved, multiple slashes collapse.
* Durations are in milliseconds (`500 * time.Millisecond` becomes `500`).
* Fallible Go code returns `Except String _` / `Option _`.
-/

namespace Healthchecks

/-- JSON document AST.  Numbers are modelled as integers: no claim of this
development concerns fractional numeric values. -/
inductive Json where
  | null : Json
  | bool (b : Bool) : Json
  | num (n : Int) : Json
  | str (s : String) : Json
  | arr (elems : List Json) : Json
  | obj (fields : List (String × Json)) : Json

/-! ## Character-list path machinery

`buildAddress` (client.go:83-89) delegates to `net/url.(*URL).JoinPath`,
which in turn joins the escaped base path with the given elements via
`path.Join` (which `path.Clean`s the concatenation) and restores a single
trailing slash.  The following functions translate those standard-library
collaborators, working on `List Char` so that the proofs can proceed by
structural induction. -/

/-- Split a character list at `'/'` separators (groups may be empty).
Models the component decomposition that `path.Clean` performs. -/
def splitSlash : List Char → List (List Char)
  | [] => [[]]
  | c :: rest =>
    if c = '/' then [] :: splitSlash rest
    else
      match splitSlash rest with
      | [] => [[c]]
      | g :: gs => (c :: g) :: gs

/-- The nonempty slash-separated components of a character list. -/
def compsL (l : List Char) : List (List Char) :=
  (splitSlash l).filter (fun g => g ≠ [])

/-- Join components with single `'/'` separators (inverse direction of
`splitSlash`; used by the translation of `path.Clean` to rebuild the
cleaned path). -/
def joinSlashL : List (List Char) → List Char
  | [] => []
  | c :: cs =>
    match cs with
    | [] => c
    | _ :: _ => c ++ '/' :: joinSlashL cs

/-- One step of `path.Clean`'s component processing: drop `.`; `..` pops
the previous component when possible, disappears at the root of a rooted
path, and is kept on a relative path; other components are appended. -/
def cleanStackStep (rooted : Bool) (acc : List (List Char)) (c : List Char) :
    List (List Char) :=
  if c = ['.'] then acc
  else if c = ['.', '.'] then
    if acc ≠ [] ∧ acc.getLast? ≠ some ['.', '.'] then acc.dropLast
    else if rooted then acc else acc ++ [c]
  else acc ++ [c]

/-- Translation of `path.Clean` (standard library, used by
`net/url.JoinPath`): shortest equivalent path — iteratively drop `.` and
empty components, resolve `..`, return `.` for an empty result and keep
the leading slash of rooted paths. -/
def pathCleanL (p : List Char) : List Char :=
  if p = [] then ['.']
  else
    let rooted := p.head? = some '/'
    let out := (compsL p).foldl (cleanStackStep rooted) []
    let s := joinSlashL out
    if rooted then '/' :: s else if s = [] then ['.'] else s

/-- One iteration of the concatenation loop inside `path.Join`: the next
element is appended, preceded by a `'/'` once the buffer is nonempty; a
leading run of empty elements is skipped. -/
def goJoinStep (buf e : List Char) : List Char :=
  if buf ≠ [] ∨ e ≠ [] then
    (if buf ≠ [] then buf ++ ['/'] else buf) ++ e
  else buf

/-- Translation of the concatenation loop inside `path.Join`. -/
def goJoinRawL (elems : List (List Char)) : List Char :=
  elems.foldl goJoinStep []

/-- Translation of `path.Join` (standard library): empty when all elements
are empty, otherwise the `path.Clean` of the slash-joined elements. -/
def goPathJoinL (elems : List (List Char)) : List Char :=
  if elems.foldl (fun n e => n + e.length) 0 = 0 then []
  else pathCleanL (goJoinRawL elems)

/-- A parsed URL, holding the pieces of `net/url.URL` that the client
reads or writes: scheme, host, path and the (decoded) query pairs. -/
@[ext]
structure URL where
  scheme : String
  host : String
  path : String
  query : List (String × String)
deriving Repr, DecidableEq

/-- Translation of `net/url.(*URL).JoinPath`: prepend the receiver's path
to the elements, make the first element rooted if the receiver's path was
relative (stripping the artificial leading slash again afterwards), join
with `path.Join`, and restore a single trailing slash when the last
element ended in one.  (`strings.HasPrefix`/`HasSuffix` with `"/"` are
expressed via `head?`/`getLast?` of the character list.) -/
def urlJoinPath (u : URL) (elems : List String) : URL :=
  let e0 := u.path.data
  let absolute := e0.head? = some '/'
  let h := if absolute then e0 else '/' :: e0
  let all := h :: elems.map String.data
  let p0 := if absolute then goPathJoinL all else (goPathJoinL all).drop 1
  let lastE := (elems.map String.data).getLastD h
  let p := if lastE.getLast? = some '/' ∧ p0.getLast? ≠ some '/' then p0 ++ ['/'] else p0
  { u with path := ⟨p⟩ }

/-- A lowercase or uppercase ASCII letter (scheme validation). -/
def isAlpha (c : Char) : Bool :=
  (97 ≤ c.toNat ∧ c.toNat ≤ 122) ∨ (65 ≤ c.toNat ∧ c.toNat ≤ 90)

/-- Valid non-initial character of a URL scheme. -/
def isSchemeChar (c : Char) : Bool :=
  isAlpha c ∨ (48 ≤ c.toNat ∧ c.toNat ≤ 57) ∨ c = '+' ∨ c = '-' ∨ c = '.'

/-- An ASCII control byte (C0 or DEL), which `net/url.Parse` rejects. -/
def isCtl (c : Char) : Bool :=
  c.toNat < 32 ∨ c.toNat = 127

/-- Split a character list at the first `'/'`, keeping the slash in the
second half (host/path split of an authority-form URL). -/
def spanToSlash (l : List Char) : List Char × List Char :=
  match l with
  | [] => ([], [])
  | c :: rest =>
    if c = '/' then ([], l)
    else
      let (a, b) := spanToSlash rest
      (c :: a, b)

/-- Modelled from the spec: the Base Address is "a fixed, validated root
URL"; validation is done by `net/url.Parse` (standard library, not under
`src/`), which fails on control characters or a malformed scheme and
otherwise decomposes `scheme://host/path`.  This translation keeps those
checks: reject control characters, require a scheme of
`[letter][letter|digit|+|-|.]*` followed by `"://"`, then split the
remainder into host and rooted path. -/
def parseURL (rawURL : String) : Option URL :=
  let cs := rawURL.data
  if cs.any (fun c => isCtl c) then none
  else
    match spanColon cs with
    | none => none
    | some (scheme, rest) =>
      match scheme, rest with
      | [], _ => none
      | s0 :: stail, '/' :: '/' :: rest' =>
        if isAlpha s0 ∧ stail.all (fun c => isSchemeChar c) then
          let (host, path) := spanToSlash rest'
          some { scheme := ⟨scheme⟩, host := ⟨host⟩, path := ⟨path⟩, query := [] }
        else none
      | _, _ => none
where
  /-- Split at the first `':'` (scheme separator), failing when absent. -/
  spanColon (l : List Char) : Option (List Char × List Char) :=
    match l with
    | [] => none
    | c :: rest =>
      if c = ':' then some ([], rest)
      else
        match spanColon rest with
        | none => none
        | some (a, b) => some (c :: a, b)

/-- Retry configuration of the underlying `retryablehttp.Client`
(client.go:70-74).  `retryMax` counts retries after the first attempt;
waits are in milliseconds. -/
structure RetryPolicy where
  retryMax : Nat
  retryWaitMin : Nat
  retryWaitMax : Nat
deriving Repr, DecidableEq

/-- The client (client.go:59-63): API key, base URL and the retry-capable
HTTP client, of which the retry policy is the modelled part. -/
structure Client where
  apiKey : String
  baseURL : String
  retry : RetryPolicy
deriving Repr, DecidableEq

/-- Go `NewClient` (client.go:69-81): retry policy `RetryMax = 5`,
`RetryWaitMin = 500ms`, `RetryWaitMax = 4s`, base URL fixed to the v3
API root. -/
def newClient (apiKey : String) : Client :=
  { apiKey := apiKey
    baseURL := "https://healthchecks.io/api/v3"
    retry := { retryMax := 5, retryWaitMin := 500, retryWaitMax := 4000 } }

/-- Go `buildAddress` (client.go:83-89): parse the configured base URL —
returning an error when that fails — and `JoinPath` the given slugs onto
it. -/
def buildAddress (c : Client) (slugs : List String) : Except String URL :=
  match parseURL c.baseURL with
  | none => .error "problem parsing baseAddress"
  | some base => .ok (urlJoinPath base slugs)

/-- Translation of `strconv.Itoa`'s digit loop: decimal digits of a
natural number, most significant first.  Structural recursion on a fuel
bound (the decimal length of `n` is at most `n + 1`), so that the kernel
can evaluate it. -/
def itoaDigitsCore : Nat → Nat → List Char
  | 0, _ => []
  | fuel + 1, n =>
    if n < 10 then [Char.ofNat (48 + n)]
    else itoaDigitsCore fuel (n / 10) ++ [Char.ofNat (48 + n % 10)]

/-- Decimal digits of a natural number, most significant first. -/
def itoaDigits (n : Nat) : List Char :=
  itoaDigitsCore (n + 1) n

/-- Translation of `strconv.Itoa` (also `fmt.Sprintf "%d"`): decimal
representation, `'-'`-prefixed for negative numbers. -/
def itoa (i : Int) : String :=
  if i < 0 then ⟨'-' :: itoaDigits i.natAbs⟩ else ⟨itoaDigits i.natAbs⟩

/-- An HTTP request as assembled by the client: method, target URL,
headers in the order they are `Set`, and the optional raw body. -/
structure Request where
  method : String
  url : URL
  headers : List (String × String)
  body : Option String
deriving Repr, DecidableEq

/-! ## JSON rendering and field decoding

`encoding/json` semantics used by the client: `omitempty` drops
zero-valued fields on marshal; on unmarshal a missing field or a JSON
`null` leaves the zero value, a type-mismatched field is an error, and a
top-level `null` leaves the whole struct untouched. -/

/-- Escaping of one character inside a JSON string literal (quote and
backslash; the development never needs the other escapes). -/
def escapeChar (c : Char) : List Char :=
  if c = '"' ∨ c = '\\' then ['\\', c] else [c]

/-- JSON string-literal escaping. -/
def escapeString (s : String) : String :=
  ⟨(s.data.map escapeChar).flatten⟩

mutual

/-- Render a JSON document to its wire text, as `json.Marshal` emits it
(no whitespace, fields in order). -/
def renderJson : Json → String
  | .null => "null"
  | .bool true => "true"
  | .bool false => "false"
  | .num n => itoa n
  | .str s => "\"" ++ escapeString s ++ "\""
  | .arr xs => "[" ++ renderJsonList xs ++ "]"
  | .obj fs => "\x7b" ++ renderJsonFields fs ++ "\x7d"

/-- Render array elements, comma separated. -/
def renderJsonList : List Json → String
  | [] => ""
  | [x] => renderJson x
  | x :: xs => renderJson x ++ "," ++ renderJsonList xs

/-- Render object fields, comma separated. -/
def renderJsonFields : List (String × Json) → String
  | [] => ""
  | [(k, v)] => "\"" ++ escapeString k ++ "\":" ++ renderJson v
  | (k, v) :: fs => "\"" ++ escapeString k ++ "\":" ++ renderJson v ++ "," ++ renderJsonFields fs

end

/-- First binding of a key in a JSON object's field list. -/
def jLookup : List (String × Json) → String → Option Json
  | [], _ => none
  | (k', v) :: rest, k => if k' = k then some v else jLookup rest k

/-- Unmarshal a looked-up field into a `string` field: missing or `null`
leaves the zero value `""`, a non-string is an error. -/
def decStr : Option Json → Except String String
  | none => .ok ""
  | some .null => .ok ""
  | some (.str s) => .ok s
  | some _ => .error "cannot unmarshal into string"

/-- Unmarshal a looked-up field into an `int` field (zero value `0`). -/
def decInt : Option Json → Except String Int
  | none => .ok 0
  | some .null => .ok 0
  | some (.num n) => .ok n
  | some _ => .error "cannot unmarshal into int"

/-- Unmarshal a looked-up field into a `bool` field (zero value `false`). -/
def decBool : Option Json → Except String Bool
  | none => .ok false
  | some .null => .ok false
  | some (.bool b) => .ok b
  | some _ => .error "cannot unmarshal into bool"

/-- Unmarshal a looked-up field into an `any` field: every document is
accepted, absence is the zero value `nil` (modelled `Json.null`). -/
def decAny (o : Option Json) : Json :=
  o.getD .null

/-- Unmarshal one array element into a `string`. -/
def decStrElem : Json → Except String String
  | .str s => .ok s
  | _ => .error "cannot unmarshal into string"

/-- Unmarshal a looked-up field into a `[]string` field (zero value
`nil`, i.e. the empty list). -/
def decStrList : Option Json → Except String (List String)
  | none => .ok []
  | some .null => .ok []
  | some (.arr xs) => xs.mapM decStrElem
  | some _ => .error "cannot unmarshal into []string"

/-- Unmarshal a looked-up field into a `*string` field (`nil` on absence
or `null`). -/
def decOptStr : Option Json → Except String (Option String)
  | none => .ok none
  | some .null => .ok none
  | some (.str s) => .ok (some s)
  | some _ => .error "cannot unmarshal into *string"

/-! ## Request/response payload shapes (client.go:91-208) -/

/-- Go `Error` (client.go:91-93): the Remote Error payload, a single
`error` message field. -/
structure Error where
  Err : String
deriving Repr, DecidableEq

/-- Go `Error.Error()` (client.go:95-97). -/
def Error.message (e : Error) : String := e.Err

/-- Go `CreateCheck` (client.go:99-119), the create-shape check. -/
structure CreateCheck where
  Name : String
  Slug : String
  Tags : String
  Description : String
  Timeout : Int
  Grace : Int
  Schedule : String
  Timezone : String
  ManualResume : Bool
  Methods : String
  Channels : String
  Unique : List String
  StartKeywords : String
  SuccessKeywords : String
  FailureKeywords : String
  FilterSubject : Bool
  FilterBody : Bool
  FilterHttpBody : Bool
  FilterDefaultFail : Bool
deriving Repr, DecidableEq

/-- Go `UpdateCheck` (client.go:121-140), the update-shape check. -/
structure UpdateCheck where
  Name : String
  Slug : String
  Tags : String
  Description : String
  Timeout : Int
  Grace : Int
  Schedule : String
  Timezone : String
  ManualResume : Bool
  Methods : String
  Channels : String
  StartKeywords : String
  SuccessKeywords : String
  FailureKeywords : String
  FilterSubject : Bool
  FilterBody : Bool
  FilterHttpBody : Bool
  FilterDefaultFail : Bool
deriving Repr, DecidableEq

/-- Go `Check` (client.go:143-173), the read-shape check.  `LastPing` and
`NextPing` are `any` in the source and keep their raw JSON document. -/
structure Check where
  Name : String
  Slug : String
  Tags : String
  Desc : String
  Grace : Int
  NPings : Int
  Status : String
  Started : Bool
  LastPing : Json
  NextPing : Json
  ManualResume : Bool
  Methods : String
  Subject : String
  SubjectFail : String
  StartKw : String
  SuccessKw : String
  FailureKw : String
  FilterSubject : Bool
  FilterBody : Bool
  FilterHTTPBody : Bool
  FilterDefaultFail : Bool
  BadgeURL : String
  UUID : String
  PingURL : String
  UpdateURL : String
  PauseURL : String
  ResumeURL : String
  Channels : String
  Timeout : Int

/-- Go `CheckListResponse` (client.go:176-178). -/
structure CheckListResponse where
  Checks : List Check

/-- Go `Ping` (client.go:181-192).  `Date` is a `time.Time` decoded from its
RFC 3339 string; the embedding keeps the string (format validation of the
timestamp text is elided).  `Duration` is a `float64` in the source,
modelled by the integral JSON numbers of this embedding. -/
structure Ping where
  «Type» : String
  Date : String
  N : Int
  Scheme : String
  RemoteAddr : String
  Method : String
  Ua : String
  Rid : String
  Duration : Int
  BodyURL : Option String
deriving Repr, DecidableEq

/-- Go `PingListResponse` (client.go:195-197). -/
structure PingListResponse where
  Pings : List Ping
deriving Repr, DecidableEq

/-- Go `Flip` (client.go:200-203). -/
structure Flip where
  Timestamp : String
  Up : Int
deriving Repr, DecidableEq

/-- Go `FlipListResponse` (client.go:206-208). -/
structure FlipListResponse where
  Flips : List Flip
deriving Repr, DecidableEq

/-! ## Marshalling (json.Marshal with `omitempty` on every tagged field) -/

/-- A `string,omitempty` field: omitted when `""`. -/
def strField (k : String) (v : String) : List (String × Json) :=
  if v = "" then [] else [(k, .str v)]

/-- An `int,omitempty` field: omitted when `0`. -/
def intField (k : String) (v : Int) : List (String × Json) :=
  if v = 0 then [] else [(k, .num v)]

/-- A `bool,omitempty` field: omitted when `false`. -/
def boolField (k : String) (v : Bool) : List (String × Json) :=
  if v = false then [] else [(k, .bool v)]

/-- A `[]string,omitempty` field: omitted when empty. -/
def strListField (k : String) (v : List String) : List (String × Json) :=
  if v = [] then [] else [(k, .arr (v.map .str))]

/-- Go `json.Marshal` of a `CreateCheck` (tags of client.go:99-119, in
field order). -/
def encodeCreateCheck (c : CreateCheck) : Json :=
  .obj (strField "name" c.Name ++ strField "slug" c.Slug ++ strField "tags" c.Tags ++
    strField "desc" c.Description ++ intField "timeout" c.Timeout ++
    intField "grace" c.Grace ++ strField "schedule" c.Schedule ++
    strField "tz" c.Timezone ++ boolField "manual_resume" c.ManualResume ++
    strField "methods" c.Methods ++ strField "channels" c.Channels ++
    strListField "unique" c.Unique ++ strField "start_kw" c.StartKeywords ++
    strField "success_kw" c.SuccessKeywords ++ strField "failure_kw" c.FailureKeywords ++
    boolField "filter_subject" c.FilterSubject ++ boolField "filter_body" c.FilterBody ++
    boolField "filter_http_body" c.FilterHttpBody ++
    boolField "filter_default_fail" c.FilterDefaultFail)

/-- Go `json.Marshal` of an `UpdateCheck` (tags of client.go:121-140). -/
def encodeUpdateCheck (c : UpdateCheck) : Json :=
  .obj (strField "name" c.Name ++ strField "slug" c.Slug ++ strField "tags" c.Tags ++
    strField "desc" c.Description ++ intField "timeout" c.Timeout ++
    intField "grace" c.Grace ++ strField "schedule" c.Schedule ++
    strField "tz" c.Timezone ++ boolField "manual_resume" c.ManualResume ++
    strField "methods" c.Methods ++ strField "channels" c.Channels ++
    strField "start_kw" c.StartKeywords ++ strField "success_kw" c.SuccessKeywords ++
    strField "failure_kw" c.FailureKeywords ++ boolField "filter_subject" c.FilterSubject ++
    boolField "filter_body" c.FilterBody ++ boolField "filter_http_body" c.FilterHttpBody ++
    boolField "filter_default_fail" c.FilterDefaultFail)

/-! ## Unmarshalling into the declared response types -/

/-- Unmarshal the fields of a JSON object into a `CreateCheck`. -/
def decodeCreateCheckFields (fs : List (String × Json)) : Except String CreateCheck := do
  let name ← decStr (jLookup fs "name")
  let slug ← decStr (jLookup fs "slug")
  let tags ← decStr (jLookup fs "tags")
  let desc ← decStr (jLookup fs "desc")
  let timeout ← decInt (jLookup fs "timeout")
  let grace ← decInt (jLookup fs "grace")
  let schedule ← decStr (jLookup fs "schedule")
  let tz ← decStr (jLookup fs "tz")
  let manualResume ← decBool (jLookup fs "manual_resume")
  let methods ← decStr (jLookup fs "methods")
  let channels ← decStr (jLookup fs "channels")
  let unique ← decStrList (jLookup fs "unique")
  let startKw ← decStr (jLookup fs "start_kw")
  let successKw ← decStr (jLookup fs "success_kw")
  let failureKw ← decStr (jLookup fs "failure_kw")
  let filterSubject ← decBool (jLookup fs "filter_subject")
  let filterBody ← decBool (jLookup fs "filter_body")
  let filterHttpBody ← decBool (jLookup fs "filter_http_body")
  let filterDefaultFail ← decBool (jLookup fs "filter_default_fail")
  return { Name := name, Slug := slug, Tags := tags, Description := desc,
           Timeout := timeout, Grace := grace, Schedule := schedule, Timezone := tz,
           ManualResume := manualResume, Methods := methods, Channels := channels,
           Unique := unique, StartKeywords := startKw, SuccessKeywords := successKw,
           FailureKeywords := failureKw, FilterSubject := filterSubject,
           FilterBody := filterBody, FilterHttpBody := filterHttpBody,
           FilterDefaultFail := filterDefaultFail }

/-- Go `json.Unmarshal` into a `CreateCheck`: a top-level `null` is a no-op
(zero value), an object is decoded field by field, anything else fails. -/
def decodeCreateCheck : Json → Except String CreateCheck
  | .null => decodeCreateCheckFields []
  | .obj fs => decodeCreateCheckFields fs
  | _ => .error "cannot unmarshal into CreateCheck"

/-- Unmarshal the fields of a JSON object into a `Check`. -/
def decodeCheckFields (fs : List (String × Json)) : Except String Check := do
  let name ← decStr (jLookup fs "name")
  let slug ← decStr (jLookup fs "slug")
  let tags ← decStr (jLookup fs "tags")
  let desc ← decStr (jLookup fs "desc")
  let grace ← decInt (jLookup fs "grace")
  let nPings ← decInt (jLookup fs "n_pings")
  let status ← decStr (jLookup fs "status")
  let started ← decBool (jLookup fs "started")
  let lastPing := decAny (jLookup fs "last_ping")
  let nextPing := decAny (jLookup fs "next_ping")
  let manualResume ← decBool (jLookup fs "manual_resume")
  let methods ← decStr (jLookup fs "methods")
  let subject ← decStr (jLookup fs "subject")
  let subjectFail ← decStr (jLookup fs "subject_fail")
  let startKw ← decStr (jLookup fs "start_kw")
  let successKw ← decStr (jLookup fs "success_kw")
  let failureKw ← decStr (jLookup fs "failure_kw")
  let filterSubject ← decBool (jLookup fs "filter_subject")
  let filterBody ← decBool (jLookup fs "filter_body")
  let filterHTTPBody ← decBool (jLookup fs "filter_http_body")
  let filterDefaultFail ← decBool (jLookup fs "filter_default_fail")
  let badgeURL ← decStr (jLookup fs "badge_url")
  let uuid ← decStr (jLookup fs "uuid")
  let pingURL ← decStr (jLookup fs "ping_url")
  let updateURL ← decStr (jLookup fs "update_url")
  let pauseURL ← decStr (jLookup fs "pause_url")
  let resumeURL ← decStr (jLookup fs "resume_url")
  let channels ← decStr (jLookup fs "channels")
  let timeout ← decInt (jLookup fs "timeout")
  return { Name := name, Slug := slug, Tags := tags, Desc := desc, Grace := grace,
           NPings := nPings, Status := status, Started := started, LastPing := lastPing,
           NextPing := nextPing, ManualResume := manualResume, Methods := methods,
           Subject := subject, SubjectFail := subjectFail, StartKw := startKw,
           SuccessKw := successKw, FailureKw := failureKw, FilterSubject := filterSubject,
           FilterBody := filterBody, FilterHTTPBody := filterHTTPBody,
           FilterDefaultFail := filterDefaultFail, BadgeURL := badgeURL, UUID := uuid,
           PingURL := pingURL, UpdateURL := updateURL, PauseURL := pauseURL,
           ResumeURL := resumeURL, Channels := channels, Timeout := timeout }

/-- Go `json.Unmarshal` into a `Check`. -/
def decodeCheck : Json → Except String Check
  | .null => decodeCheckFields []
  | .obj fs => decodeCheckFields fs
  | _ => .error "cannot unmarshal into Check"

/-- Unmarshal one array element into a `Check`. -/
def decodeCheckElem (j : Json) : Except String Check :=
  decodeCheck j

/-- Unmarshal a looked-up field into a `[]Check` field. -/
def decodeCheckArr : Option Json → Except String (List Check)
  | none => .ok []
  | some .null => .ok []
  | some (.arr xs) => xs.mapM decodeCheckElem
  | some _ => .error "cannot unmarshal into []Check"

/-- Go `json.Unmarshal` into a `CheckListResponse` (`checks` array, zero
value `nil` when absent). -/
def decodeCheckList : Json → Except String CheckListResponse
  | .null => .ok { Checks := [] }
  | .obj fs => do
    let checks ← decodeCheckArr (jLookup fs "checks")
    return { Checks := checks }
  | _ => .error "cannot unmarshal into CheckListResponse"

/-- Unmarshal the fields of a JSON object into a `Ping`. -/
def decodePingFields (fs : List (String × Json)) : Except String Ping := do
  let type ← decStr (jLookup fs "type")
  let date ← decStr (jLookup fs "date")
  let n ← decInt (jLookup fs "n")
  let scheme ← decStr (jLookup fs "scheme")
  let remoteAddr ← decStr (jLookup fs "remote_addr")
  let method ← decStr (jLookup fs "method")
  let ua ← decStr (jLookup fs "ua")
  let rid ← decStr (jLookup fs "rid")
  let duration ← decInt (jLookup fs "duration")
  let bodyURL ← decOptStr (jLookup fs "body_url")
  return { «Type» := type, Date := date, N := n, Scheme := scheme,
           RemoteAddr := remoteAddr, Method := method, Ua := ua, Rid := rid,
           Duration := duration, BodyURL := bodyURL }

/-- Go `json.Unmarshal` into a `Ping`. -/
def decodePing : Json → Except String Ping
  | .null => decodePingFields []
  | .obj fs => decodePingFields fs
  | _ => .error "cannot unmarshal into Ping"

/-- Unmarshal a looked-up field into a `[]Ping` field. -/
def decodePingArr : Option Json → Except String (List Ping)
  | none => .ok []
  | some .null => .ok []
  | some (.arr xs) => xs.mapM decodePing
  | some _ => .error "cannot unmarshal into []Ping"

/-- Go `json.Unmarshal` into a `PingListResponse` (`pings` array). -/
def decodePingList : Json → Except String PingListResponse
  | .null => .ok { Pings := [] }
  | .obj fs => do
    let pings ← decodePingArr (jLookup fs "pings")
    return { Pings := pings }
  | _ => .error "cannot unmarshal into PingListResponse"

/-- Unmarshal the fields of a JSON object into a `Flip`. -/
def decodeFlipFields (fs : List (String × Json)) : Except String Flip := do
  let timestamp ← decStr (jLookup fs "timestamp")
  let up ← decInt (jLookup fs "up")
  return { Timestamp := timestamp, Up := up }

/-- Go `json.Unmarshal` into a `Flip`. -/
def decodeFlip : Json → Except String Flip
  | .null => decodeFlipFields []
  | .obj fs => decodeFlipFields fs
  | _ => .error "cannot unmarshal into Flip"

/-- Unmarshal a looked-up field into a `[]Flip` field. -/
def decodeFlipArr : Option Json → Except String (List Flip)
  | none => .ok []
  | some .null => .ok []
  | some (.arr xs) => xs.mapM decodeFlip
  | some _ => .error "cannot unmarshal into []Flip"

/-- Go `json.Unmarshal` into a `FlipListResponse` (`flips` array). -/
def decodeFlipList : Json → Except String FlipListResponse
  | .null => .ok { Flips := [] }
  | .obj fs => do
    let flips ← decodeFlipArr (jLookup fs "flips")
    return { Flips := flips }
  | _ => .error "cannot unmarshal into FlipListResponse"

/-- The ignored-error decode of the Remote Error payload
(`json.NewDecoder(resp.Body).Decode(&err2)` with the returned error
discarded): best effort — the message field is kept only when the body is
an object carrying `error` as a string, and the zero value `""` remains
otherwise. -/
def decodeGoError (j : Json) : Error :=
  match j with
  | .obj fs =>
    match jLookup fs "error" with
    | some (.str s) => { Err := s }
    | _ => { Err := "" }
  | _ => { Err := "" }

/-! ## Query parameters -/

/-- Go `GetChecks` (client.go:254-257), the list-checks query parameters. -/
structure GetChecks where
  Slug : String
  Tags : String
deriving Repr, DecidableEq

/-- Go `GetFlipsRequest` (client.go:573-577). -/
structure GetFlipsRequest where
  Seconds : Int
  Start : Int
  «End» : Int
deriving Repr, DecidableEq

/-- The query pairs `GetChecks` sets (client.go:272-279): `slug` and
`tags`, each only when nonempty.  (`url.Values.Encode` emits keys
sorted; `slug` < `tags`, so the set order shown here is also the encoded
order.) -/
def getChecksQuery (params : GetChecks) : List (String × String) :=
  (if params.Slug ≠ "" then [("slug", params.Slug)] else []) ++
    (if params.Tags ≠ "" then [("tags", params.Tags)] else [])

/-- The query pairs `GetFlips` sets (client.go:591-601): `seconds`,
`start` and `end`, each only when positive, rendered in decimal
(`strconv.Itoa` / `fmt.Sprintf "%d"`). -/
def getFlipsQuery (params : GetFlipsRequest) : List (String × String) :=
  (if params.Seconds > 0 then [("seconds", itoa params.Seconds)] else []) ++
    (if params.Start > 0 then [("start", itoa params.Start)] else []) ++
    (if params.«End» > 0 then [("end", itoa params.«End»)] else [])

/-! ## The requests each operation builds

Each Resource Operation is split into the request it assembles (this
section) and the classification of the response it receives (next
section); the transport in between is external. -/

/-- The request `CreateCheck` builds (client.go:211-233): POST
`/checks/`, marshalled body, `X-Api-Key` and `Content-Type` headers. -/
def createCheckRequest (c : Client) (check : CreateCheck) : Except String Request :=
  match buildAddress c ["/checks/"] with
  | .error e => .error e
  | .ok address =>
    .ok { method := "POST", url := address,
          headers := [("X-Api-Key", c.apiKey), ("Content-Type", "application/json")],
          body := some (renderJson (encodeCreateCheck check)) }

/-- The request `GetChecks` builds (client.go:260-285): GET `/checks/`
with the optional `slug`/`tags` query, `X-Api-Key` header, no body. -/
def getChecksRequest (c : Client) (params : GetChecks) : Except String Request :=
  match buildAddress c ["/checks/"] with
  | .error e => .error e
  | .ok address =>
    .ok { method := "GET", url := { address with query := getChecksQuery params },
          headers := [("X-Api-Key", c.apiKey)], body := none }

/-- The request `GetCheck` builds (client.go:307-322): GET
`/checks/{identifier}`, `X-Api-Key` header, no body. -/
def getCheckRequest (c : Client) (identifier : String) : Except String Request :=
  match buildAddress c ["/checks/", identifier] with
  | .error e => .error e
  | .ok address =>
    .ok { method := "GET", url := address,
          headers := [("X-Api-Key", c.apiKey)], body := none }

/-- The request `UpdateCheck` builds (client.go:344-367): POST
`/checks/{uuid}`, marshalled body, `X-Api-Key` and `Content-Type`. -/
def updateCheckRequest (c : Client) (uuid : String) (update : UpdateCheck) :
    Except String Request :=
  match buildAddress c ["/checks/", uuid] with
  | .error e => .error e
  | .ok address =>
    .ok { method := "POST", url := address,
          headers := [("X-Api-Key", c.apiKey), ("Content-Type", "application/json")],
          body := some (renderJson (encodeUpdateCheck update)) }

/-- The request `DeleteCheck` builds (client.go:389-404): DELETE
`/checks/{uuid}`, `X-Api-Key` header, no body. -/
def deleteCheckRequest (c : Client) (uuid : String) : Except String Request :=
  match buildAddress c ["/checks/", uuid] with
  | .error e => .error e
  | .ok address =>
    .ok { method := "DELETE", url := address,
          headers := [("X-Api-Key", c.apiKey)], body := none }

/-- The request `PauseCheck` builds (client.go:426-441): POST
`/checks/{uuid}/pause`, `X-Api-Key` header, no body. -/
def pauseCheckRequest (c : Client) (uuid : String) : Except String Request :=
  match buildAddress c ["/checks/", uuid, "/pause"] with
  | .error e => .error e
  | .ok address =>
    .ok { method := "POST", url := address,
          headers := [("X-Api-Key", c.apiKey)], body := none }

/-- The request `ResumeCheck` builds (client.go:463-478): POST
`/checks/{uuid}/resume`, `X-Api-Key` header, no body. -/
def resumeCheckRequest (c : Client) (uuid : String) : Except String Request :=
  match buildAddress c ["/checks/", uuid, "/resume"] with
  | .error e => .error e
  | .ok address =>
    .ok { method := "POST", url := address,
          headers := [("X-Api-Key", c.apiKey)], body := none }

/-- The request `GetPings` builds (client.go:500-515): GET
`/checks/{identifier}/pings/`, `X-Api-Key` header, no body. -/
def getPingsRequest (c : Client) (identifier : String) : Except String Request :=
  match buildAddress c ["/checks/", identifier, "/pings/"] with
  | .error e => .error e
  | .ok address =>
    .ok { method := "GET", url := address,
          headers := [("X-Api-Key", c.apiKey)], body := none }

/-- The request `GetPingBody` builds (client.go:537-552): GET
`/checks/{uuid}/pings/{n}/body` with `n` rendered by `strconv.Itoa`,
`X-Api-Key` header, no body.  `n` is passed through unexamined. -/
def getPingBodyRequest (c : Client) (uuid : String) (n : Int) : Except String Request :=
  match buildAddress c ["/checks/", uuid, "/pings/", itoa n, "/body"] with
  | .error e => .error e
  | .ok address =>
    .ok { method := "GET", url := address,
          headers := [("X-Api-Key", c.apiKey)], body := none }

/-- The request `GetFlips` builds (client.go:580-607): GET
`/checks/{identifier}/flips/` with the optional `seconds`/`start`/`end`
query, `X-Api-Key` header, no body. -/
def getFlipsRequest (c : Client) (identifier : String) (params : GetFlipsRequest) :
    Except String Request :=
  match buildAddress c ["/checks/", identifier, "/flips/"] with
  | .error e => .error e
  | .ok address =>
    .ok { method := "GET", url := { address with query := getFlipsQuery params },
          headers := [("X-Api-Key", c.apiKey)], body := none }

/-- Go `PingOption` (client.go:664): a URL transformer. -/
def PingOption : Type := URL → URL

/-- Go `WithStart` (client.go:667-671): append the fixed `/start` suffix. -/
def withStart : PingOption :=
  fun u => urlJoinPath u ["/start"]

/-- Go `WithFail` (client.go:673-677): append the fixed `/fail` suffix. -/
def withFail : PingOption :=
  fun u => urlJoinPath u ["/fail"]

/-- The request `Ping` builds (client.go:629-648): parse the
caller-supplied ping URL, apply the options in order, POST the raw text
body, and set only a `User-Agent` header. -/
def pingRequest (_c : Client) (pingURL : String) (body : String)
    (opts : List PingOption) : Except String Request :=
  match parseURL pingURL with
  | none => .error "parsing ping url"
  | some addr0 =>
    let addr := opts.foldl (fun a f => f a) addr0
    .ok { method := "POST", url := addr,
          headers := [("User-Agent", "go-healthchecks-client")],
          body := some body }

/-! ## Response classification

Each operation compares the status code against its expected success
code; on mismatch it decodes the body as a Remote Error ignoring decode
failures (client.go:241-245 and analogues), on match it decodes the
declared success type, surfacing a decode failure as a distinct error
kind.  Response bodies are represented by their parsed JSON document; the
raw wire text of a body `j` is `renderJson j`. -/

/-- The two error kinds an operation can classify a received response
into: a status mismatch carrying the actual code and the best-effort
message, or a malformed success payload. -/
inductive OpErr where
  | statusMismatch (code : Nat) (msg : String)
  | decodeFailure (reason : String)
deriving Repr, DecidableEq

/-- Response classification of `CreateCheck` (client.go:241-251):
expects 201 Created, decodes a `Check`. -/
def createCheckHandle (status : Nat) (body : Json) : Except OpErr Check :=
  if status ≠ 201 then .error (.statusMismatch status (decodeGoError body).Err)
  else
    match decodeCheck body with
    | .ok created => .ok created
    | .error e => .error (.decodeFailure e)

/-- Response classification of `GetChecks` (client.go:293-303): expects
200, decodes a `CheckListResponse`. -/
def getChecksHandle (status : Nat) (body : Json) : Except OpErr CheckListResponse :=
  if status ≠ 200 then .error (.statusMismatch status (decodeGoError body).Err)
  else
    match decodeCheckList body with
    | .ok list => .ok list
    | .error e => .error (.decodeFailure e)

/-- Response classification of `GetCheck` (client.go:330-340): expects
200, decodes a `Check`. -/
def getCheckHandle (status : Nat) (body : Json) : Except OpErr Check :=
  if status ≠ 200 then .error (.statusMismatch status (decodeGoError body).Err)
  else
    match decodeCheck body with
    | .ok ch => .ok ch
    | .error e => .error (.decodeFailure e)

/-- Response classification of `UpdateCheck` (client.go:375-385):
expects 200, decodes a `Check`. -/
def updateCheckHandle (status : Nat) (body : Json) : Except OpErr Check :=
  if status ≠ 200 then .error (.statusMismatch status (decodeGoError body).Err)
  else
    match decodeCheck body with
    | .ok updated => .ok updated
    | .error e => .error (.decodeFailure e)

/-- Response classification of `DeleteCheck` (client.go:412-422):
expects 200, decodes a `Check`. -/
def deleteCheckHandle (status : Nat) (body : Json) : Except OpErr Check :=
  if status ≠ 200 then .error (.statusMismatch status (decodeGoError body).Err)
  else
    match decodeCheck body with
    | .ok deleted => .ok deleted
    | .error e => .error (.decodeFailure e)

/-- Response classification of `PauseCheck` (client.go:449-459):
expects 200, decodes a `Check`. -/
def pauseCheckHandle (status : Nat) (body : Json) : Except OpErr Check :=
  if status ≠ 200 then .error (.statusMismatch status (decodeGoError body).Err)
  else
    match decodeCheck body with
    | .ok paused => .ok paused
    | .error e => .error (.decodeFailure e)

/-- Response classification of `ResumeCheck` (client.go:486-496):
expects 200, decodes a `Check`. -/
def resumeCheckHandle (status : Nat) (body : Json) : Except OpErr Check :=
  if status ≠ 200 then .error (.statusMismatch status (decodeGoError body).Err)
  else
    match decodeCheck body with
    | .ok resumed => .ok resumed
    | .error e => .error (.decodeFailure e)

/-- Response classification of `GetPings` (client.go:523-533): expects
200, decodes a `PingListResponse`. -/
def getPingsHandle (status : Nat) (body : Json) : Except OpErr PingListResponse :=
  if status ≠ 200 then .error (.statusMismatch status (decodeGoError body).Err)
  else
    match decodePingList body with
    | .ok list => .ok list
    | .error e => .error (.decodeFailure e)

/-- Response classification of `GetPingBody` (client.go:560-570):
expects 200, returns the raw body text (`io.ReadAll`). -/
def getPingBodyHandle (status : Nat) (body : Json) : Except OpErr String :=
  if status ≠ 200 then .error (.statusMismatch status (decodeGoError body).Err)
  else .ok (renderJson body)

/-- Response classification of `GetFlips` (client.go:615-625): expects
200, decodes a `FlipListResponse`. -/
def getFlipsHandle (status : Nat) (body : Json) : Except OpErr FlipListResponse :=
  if status ≠ 200 then .error (.statusMismatch status (decodeGoError body).Err)
  else
    match decodeFlipList body with
    | .ok list => .ok list
    | .error e => .error (.decodeFailure e)

/-- Response classification of `Ping` (client.go:655-660): expects 200;
on mismatch the error embeds the status code and the raw body text
(`io.ReadAll`), with no Remote Error decode. -/
def pingHandle (status : Nat) (body : Json) : Except OpErr Unit :=
  if status ≠ 200 then .error (.statusMismatch status (renderJson body))
  else .ok ()

/-! ## Retry execution -/

/-- Modelled from the spec: the retry loop of the underlying HTTP
transport (`hashicorp/go-retryablehttp`, a dependency not under `src/`)
— "on network failure or a transient status class, the core waits an
exponentially increasing delay (bounded by policy min/max) and retries,
up to the maximum attempt count".  The wait before retry number
`attempt + 1` doubles the policy minimum `attempt` times and is capped at
the policy maximum. -/
def backoffWait (pol : RetryPolicy) (attempt : Nat) : Nat :=
  min (pol.retryWaitMin * 2 ^ attempt) pol.retryWaitMax

/-- Modelled from the spec: the attempt loop of the underlying transport,
with `remaining` retries left after the current attempt.  `transport i`
tells whether attempt number `i` (0-based) succeeds; the result is the
number of transport invocations, the final outcome, and the waits slept
between consecutive attempts. -/
def retryGo (pol : RetryPolicy) (transport : Nat → Bool) :
    Nat → Nat → Nat × Bool × List Nat
  | attempt, 0 => (1, transport attempt, [])
  | attempt, remaining + 1 =>
    if transport attempt then (1, true, [])
    else
      let rest := retryGo pol transport (attempt + 1) remaining
      (rest.1 + 1, rest.2.1, backoffWait pol attempt :: rest.2.2)

/-- Modelled from the spec: executing one request under the Retry
Policy, `retryMax` retries after the initial attempt. -/
def retryExec (pol : RetryPolicy) (transport : Nat → Bool) : Nat × Bool × List Nat :=
  retryGo pol transport 0 pol.retryMax

/-- No two consecutive slashes anywhere in a character list: the formal
reading of "no double slash at a segment boundary". -/
def NoDS (l : List Char) : Prop :=
  l.Chain' (fun a b => ¬(a = '/' ∧ b = '/'))

/-- A path component that the `path.Clean` stack passes through
unchanged: not `.` and not `..`. -/
def NotDots (c : List Char) : Prop :=
  c ≠ ['.'] ∧ c ≠ ['.', '.']

instance (l : List Char) : Decidable (NoDS l) :=
  inferInstanceAs (Decidable (List.Chain' _ l))

instance (c : List Char) : Decidable (NotDots c) :=
  inferInstanceAs (Decidable (c ≠ ['.'] ∧ c ≠ ['.', '.']))

/-! ## Lemmas about splitting and joining path components -/

theorem splitSlash_ne_nil (l : List Char) : splitSlash l ≠ [] := by
  match l with
  | [] => simp [splitSlash]
  | c :: rest =>
    by_cases hc : c = '/'
    · simp [splitSlash, hc]
    · simp only [splitSlash, hc, if_false]
      cases h : splitSlash rest <;> simp

theorem splitSlash_append_slash (a b : List Char) :
    splitSlash (a ++ '/' :: b) = splitSlash a ++ splitSlash b := by
  induction a with
  | nil => simp [splitSlash]
  | cons c rest ih =>
    by_cases hc : c = '/'
    · simp [splitSlash, hc, ih]
    · simp only [List.cons_append, splitSlash, hc, if_false]
      cases h : splitSlash rest with
      | nil => exact absurd h (splitSlash_ne_nil rest)
      | cons g gs => simp [ih, h]

theorem splitSlash_no_slash (l : List Char) : ∀ g ∈ splitSlash l, '/' ∉ g := by
  induction l with
  | nil => simp [splitSlash]
  | cons c rest ih =>
    by_cases hc : c = '/'
    · simpa [splitSlash, hc] using ih
    · simp only [splitSlash, hc, if_false]
      cases h : splitSlash rest with
      | nil => exact absurd h (splitSlash_ne_nil rest)
      | cons g gs =>
        intro g' hg'
        rcases List.mem_cons.mp hg' with rfl | hmem
        · have hg := ih g (by simp [h])
          simp only [List.mem_cons]
          rintro (rfl | hin)
          · exact hc rfl
          · exact hg hin
        · exact ih g' (by simp [h, hmem])

theorem splitSlash_of_no_slash (l : List Char) (h : '/' ∉ l) : splitSlash l = [l] := by
  induction l with
  | nil => simp [splitSlash]
  | cons c rest ih =>
    have hc : c ≠ '/' := fun hc => h (by simp [hc])
    have hr : '/' ∉ rest := fun hr => h (by simp [hr])
    simp [splitSlash, hc, ih hr]

theorem compsL_nil : compsL [] = [] := by
  simp [compsL, splitSlash]

theorem compsL_cons_slash (l : List Char) : compsL ('/' :: l) = compsL l := by
  simp [compsL, splitSlash]

theorem compsL_append_slash (a b : List Char) :
    compsL (a ++ '/' :: b) = compsL a ++ compsL b := by
  simp [compsL, splitSlash_append_slash, List.filter_append]

theorem compsL_append_slash_nil (a : List Char) : compsL (a ++ ['/']) = compsL a := by
  have := compsL_append_slash a []
  simpa [compsL_nil] using this

theorem compsL_mem_props (l : List Char) : ∀ g ∈ compsL l, g ≠ [] ∧ '/' ∉ g := by
  intro g hg
  have hmem := List.mem_of_mem_filter hg
  have hne := List.of_mem_filter hg
  exact ⟨by simpa using hne, splitSlash_no_slash l g hmem⟩

theorem compsL_of_no_slash (l : List Char) (hne : l ≠ []) (h : '/' ∉ l) :
    compsL l = [l] := by
  simp [compsL, splitSlash_of_no_slash l h, hne]

theorem joinSlashL_cons (c : List Char) (cs : List (List Char)) (h : cs ≠ []) :
    joinSlashL (c :: cs) = c ++ '/' :: joinSlashL cs := by
  cases cs with
  | nil => exact absurd rfl h
  | cons d ds => rfl

theorem compsL_joinSlashL (cs : List (List Char))
    (h : ∀ c ∈ cs, c ≠ [] ∧ '/' ∉ c) : compsL (joinSlashL cs) = cs := by
  induction cs with
  | nil => simp [joinSlashL, compsL_nil]
  | cons c cs ih =>
    cases cs with
    | nil =>
      have hc := h c (by simp)
      simpa [joinSlashL] using compsL_of_no_slash c hc.1 hc.2
    | cons d ds =>
      have hc := h c (by simp)
      rw [joinSlashL_cons c (d :: ds) (by simp), compsL_append_slash,
        compsL_of_no_slash c hc.1 hc.2,
        ih (fun x hx => h x (by simp [hx]))]
      rfl

theorem joinSlashL_append_single (cs : List (List Char)) (d : List Char) (h : cs ≠ []) :
    joinSlashL (cs ++ [d]) = joinSlashL cs ++ '/' :: d := by
  induction cs with
  | nil => exact absurd rfl h
  | cons c cs ih =>
    cases cs with
    | nil => simp [joinSlashL]
    | cons e es =>
      rw [List.cons_append, joinSlashL_cons c ((e :: es) ++ [d]) (by simp),
        joinSlashL_cons c (e :: es) (by simp), ih (by simp)]
      simp

theorem joinSlashL_ne_nil (cs : List (List Char)) (hcs : cs ≠ [])
    (h : ∀ c ∈ cs, c ≠ []) : joinSlashL cs ≠ [] := by
  cases cs with
  | nil => exact absurd rfl hcs
  | cons c cs =>
    have hc := h c (by simp)
    cases cs with
    | nil => simpa [joinSlashL] using hc
    | cons d ds =>
      rw [joinSlashL_cons c (d :: ds) (by simp)]
      cases c with
      | nil => exact absurd rfl hc
      | cons a t => simp

theorem joinSlashL_head_ne_slash (cs : List (List Char))
    (h : ∀ c ∈ cs, c ≠ [] ∧ '/' ∉ c) : (joinSlashL cs).head? ≠ some '/' := by
  cases cs with
  | nil => simp [joinSlashL]
  | cons c cs =>
    have hc := h c (by simp)
    have hh : (joinSlashL (c :: cs)).head? = c.head? := by
      cases cs with
      | nil => simp [joinSlashL]
      | cons d ds =>
        rw [joinSlashL_cons c (d :: ds) (by simp)]
        cases c with
        | nil => exact absurd rfl hc.1
        | cons a t => simp
    rw [hh]
    cases c with
    | nil => exact absurd rfl hc.1
    | cons a t =>
      have : a ≠ '/' := fun ha => hc.2 (by simp [ha])
      simp [this]

theorem mem_of_getLast_opt {α : Type} {l : List α} {a : α}
    (h : l.getLast? = some a) : a ∈ l := by
  obtain ⟨hne, rfl⟩ := List.mem_getLast?_eq_getLast (Option.mem_def.mpr h)
  exact List.getLast_mem hne

theorem joinSlashL_getLast_ne_slash (cs : List (List Char))
    (h : ∀ c ∈ cs, c ≠ [] ∧ '/' ∉ c) : (joinSlashL cs).getLast? ≠ some '/' := by
  induction cs with
  | nil => simp [joinSlashL]
  | cons c cs ih =>
    have hc := h c (by simp)
    cases cs with
    | nil =>
      simp only [joinSlashL]
      intro hl
      exact hc.2 (mem_of_getLast_opt hl)
    | cons d ds =>
      rw [joinSlashL_cons c (d :: ds) (by simp)]
      have hjoin : joinSlashL (d :: ds) ≠ [] :=
        joinSlashL_ne_nil (d :: ds) (by simp) (fun x hx => (h x (by simp [hx])).1)
      rw [List.getLast?_append_of_ne_nil _ (by simp)]
      rw [show ('/' :: joinSlashL (d :: ds)) = ['/'] ++ joinSlashL (d :: ds) from rfl,
        List.getLast?_append_of_ne_nil _ hjoin]
      exact ih (fun x hx => h x (by simp [hx]))

theorem noDS_of_no_slash (l : List Char) (h : '/' ∉ l) : NoDS l := by
  induction l with
  | nil => exact List.chain'_nil
  | cons a t ih =>
    have ha : a ≠ '/' := fun hcontr => h (by simp [hcontr])
    have ht : '/' ∉ t := fun hcontr => h (by simp [hcontr])
    rw [NoDS, List.chain'_cons']
    exact ⟨fun y _ hy => ha hy.1, ih ht⟩

theorem joinSlashL_noDS (cs : List (List Char))
    (h : ∀ c ∈ cs, c ≠ [] ∧ '/' ∉ c) : NoDS (joinSlashL cs) := by
  induction cs with
  | nil => exact List.chain'_nil
  | cons c cs ih =>
    have hc := h c (by simp)
    cases cs with
    | nil => simpa [joinSlashL] using noDS_of_no_slash c hc.2
    | cons d ds =>
      rw [joinSlashL_cons c (d :: ds) (by simp)]
      rw [NoDS, List.chain'_append]
      refine ⟨noDS_of_no_slash c hc.2, ?_, ?_⟩
      · rw [List.chain'_cons']
        refine ⟨?_, ih (fun x hx => h x (by simp [hx]))⟩
        intro y hy hcontra
        exact joinSlashL_head_ne_slash (d :: ds)
          (fun x hx => h x (by simp [hx])) (hcontra.2 ▸ hy)
      · intro x hx y hy hcontra
        exact hc.2 (hcontra.1 ▸ mem_of_getLast_opt (Option.mem_def.mp hx))

theorem rooted_joinSlashL_noDS (cs : List (List Char))
    (h : ∀ c ∈ cs, c ≠ [] ∧ '/' ∉ c) : NoDS ('/' :: joinSlashL cs) := by
  rw [NoDS, List.chain'_cons']
  refine ⟨?_, joinSlashL_noDS cs h⟩
  intro y hy hcontra
  exact joinSlashL_head_ne_slash cs h (hcontra.2 ▸ hy)

/-! ## Lemmas about the `path.Clean` component stack -/

theorem cleanStackStep_sublist (rooted : Bool) (acc : List (List Char))
    (c : List Char) : List.Sublist (cleanStackStep rooted acc c) (acc ++ [c]) := by
  rw [cleanStackStep]
  split
  · exact List.sublist_append_left acc [c]
  · split
    · split
      · exact (List.dropLast_sublist acc).trans (List.sublist_append_left acc [c])
      · split
        · exact List.sublist_append_left acc [c]
        · exact List.Sublist.refl _
    · exact List.Sublist.refl _

theorem cleanFold_sublist (rooted : Bool) (cs : List (List Char)) :
    ∀ acc, List.Sublist (List.foldl (cleanStackStep rooted) acc cs) (acc ++ cs) := by
  induction cs with
  | nil => intro acc; simp
  | cons c cs ih =>
    intro acc
    rw [List.foldl_cons]
    have h1 := ih (cleanStackStep rooted acc c)
    have h2 := (cleanStackStep_sublist rooted acc c).append_right cs
    have h3 := h1.trans h2
    simpa using h3

theorem cleanStackStep_plain (rooted : Bool) (acc : List (List Char))
    (c : List Char) (h : NotDots c) : cleanStackStep rooted acc c = acc ++ [c] := by
  rw [cleanStackStep, if_neg h.1, if_neg h.2]

theorem cleanFold_plain (rooted : Bool) (cs : List (List Char))
    (h : ∀ c ∈ cs, NotDots c) : ∀ acc, List.foldl (cleanStackStep rooted) acc cs = acc ++ cs := by
  induction cs with
  | nil => intro acc; simp
  | cons c cs ih =>
    intro acc
    rw [List.foldl_cons, cleanStackStep_plain rooted acc c (h c (by simp)),
      ih (fun x hx => h x (by simp [hx]))]
    simp

/-! ## Lemmas about the `path.Join` concatenation loop -/

theorem goJoinStep_of_ne_nil (buf e : List Char) (h : buf ≠ []) :
    goJoinStep buf e = buf ++ '/' :: e := by
  rw [goJoinStep, if_pos (Or.inl h), if_pos h]
  simp

theorem compsL_goJoinStep (buf e : List Char) :
    compsL (goJoinStep buf e) = compsL buf ++ compsL e := by
  by_cases hb : buf = []
  · subst hb
    by_cases he : e = []
    · simp [goJoinStep, he, compsL_nil]
    · simp [goJoinStep, he, compsL_nil]
  · rw [goJoinStep_of_ne_nil buf e hb, compsL_append_slash]

theorem compsL_goJoinFold (elems : List (List Char)) :
    ∀ buf, compsL (List.foldl goJoinStep buf elems) =
      compsL buf ++ (elems.map compsL).flatten := by
  induction elems with
  | nil => intro buf; simp
  | cons e elems ih =>
    intro buf
    rw [List.foldl_cons, ih, compsL_goJoinStep]
    simp

theorem compsL_goJoinRawL (elems : List (List Char)) :
    compsL (goJoinRawL elems) = (elems.map compsL).flatten := by
  rw [goJoinRawL, compsL_goJoinFold]
  simp [compsL_nil]

theorem goJoinFold_ne_nil (elems : List (List Char)) :
    ∀ buf, buf ≠ [] → List.foldl goJoinStep buf elems ≠ [] := by
  induction elems with
  | nil => intro buf h; simpa using h
  | cons e elems ih =>
    intro buf h
    rw [List.foldl_cons]
    exact ih _ (by rw [goJoinStep_of_ne_nil buf e h]; simp [h])

theorem goJoinFold_head (elems : List (List Char)) :
    ∀ buf, buf ≠ [] → (List.foldl goJoinStep buf elems).head? = buf.head? := by
  induction elems with
  | nil => intro buf _; rfl
  | cons e elems ih =>
    intro buf h
    rw [List.foldl_cons, ih _ (by rw [goJoinStep_of_ne_nil buf e h]; simp [h]),
      goJoinStep_of_ne_nil buf e h]
    cases buf with
    | nil => exact absurd rfl h
    | cons a t => simp

theorem foldl_length_ge (elems : List (List Char)) :
    ∀ n : Nat, n ≤ elems.foldl (fun n e => n + e.length) n := by
  induction elems with
  | nil => intro n; simp
  | cons e elems ih =>
    intro n
    rw [List.foldl_cons]
    exact le_trans (Nat.le_add_right n e.length) (ih (n + e.length))

theorem goPathJoinL_of_head_ne_nil (h : List Char) (rest : List (List Char))
    (hne : h ≠ []) :
    goPathJoinL (h :: rest) = pathCleanL (goJoinRawL (h :: rest)) := by
  rw [goPathJoinL, if_neg]
  intro hcontra
  have h1 : h.length ≤ (h :: rest).foldl (fun n e => n + e.length) 0 := by
    rw [List.foldl_cons]
    simpa using foldl_length_ge rest h.length
  rw [hcontra] at h1
  have : h.length ≠ 0 := fun hlen => hne (List.length_eq_zero.mp hlen)
  omega

theorem goJoinRawL_cons_head (h : List Char) (rest : List (List Char)) (hne : h ≠ []) :
    (goJoinRawL (h :: rest)).head? = h.head? := by
  rw [goJoinRawL, List.foldl_cons]
  have hstep : goJoinStep [] h = h := by
    rw [goJoinStep, if_pos (Or.inr hne)]
    simp
  rw [hstep, goJoinFold_head rest h hne]

theorem goJoinRawL_cons_ne_nil (h : List Char) (rest : List (List Char)) (hne : h ≠ []) :
    goJoinRawL (h :: rest) ≠ [] := by
  rw [goJoinRawL, List.foldl_cons]
  have hstep : goJoinStep [] h = h := by
    rw [goJoinStep, if_pos (Or.inr hne)]
    simp
  rw [hstep]
  exact goJoinFold_ne_nil rest h hne

/-- The cleaned rooted join of a head path and further elements: the
cleaned output components and the rebuilt path. -/
theorem pathCleanL_rooted (p : List Char) (hne : p ≠ []) (hr : p.head? = some '/') :
    pathCleanL p = '/' :: joinSlashL ((compsL p).foldl (cleanStackStep true) []) := by
  rw [pathCleanL, if_neg hne]
  simp only [hr]
  simp

theorem goPathJoinL_rooted (h : List Char) (rest : List (List Char))
    (hne : h ≠ []) (hr : h.head? = some '/') :
    goPathJoinL (h :: rest) =
      '/' :: joinSlashL (((h :: rest).map compsL).flatten.foldl (cleanStackStep true) []) := by
  rw [goPathJoinL_of_head_ne_nil h rest hne,
    pathCleanL_rooted _ (goJoinRawL_cons_ne_nil h rest hne)
      (by rw [goJoinRawL_cons_head h rest hne]; exact hr),
    compsL_goJoinRawL]

/-! ## Characterisation of `urlJoinPath` on an absolute base path -/

theorem urlJoinPath_absolute (u : URL) (elems : List String)
    (h0 : u.path.data.head? = some '/') :
    (urlJoinPath u elems).path.data =
      if ((elems.map String.data).getLastD u.path.data).getLast? = some '/' ∧
          (goPathJoinL (u.path.data :: elems.map String.data)).getLast? ≠ some '/'
      then goPathJoinL (u.path.data :: elems.map String.data) ++ ['/']
      else goPathJoinL (u.path.data :: elems.map String.data) := by
  simp only [urlJoinPath, h0]
  simp

theorem urlJoinPath_scheme (u : URL) (elems : List String) :
    (urlJoinPath u elems).scheme = u.scheme := rfl

theorem urlJoinPath_host (u : URL) (elems : List String) :
    (urlJoinPath u elems).host = u.host := rfl

/-- The output components of an absolute-base join are exactly the
`path.Clean` stack run over the base components followed by the
components of every element, in order. -/
theorem urlJoinPath_comps (u : URL) (elems : List String)
    (h0 : u.path.data.head? = some '/') :
    compsL (urlJoinPath u elems).path.data =
      (compsL u.path.data ++ (elems.map (fun s => compsL s.data)).flatten).foldl
        (cleanStackStep true) [] := by
  have hne : u.path.data ≠ [] := by
    intro hcontra
    rw [hcontra] at h0
    simp at h0
  have hflat : ((u.path.data :: elems.map String.data).map compsL).flatten =
      compsL u.path.data ++ (elems.map (fun s => compsL s.data)).flatten := by
    simp [List.map_map, Function.comp_def]
  have hout : ∀ c ∈ (((u.path.data :: elems.map String.data).map compsL).flatten.foldl
      (cleanStackStep true) []), c ≠ [] ∧ '/' ∉ c := by
    intro c hc
    have hsub := cleanFold_sublist true
      (((u.path.data :: elems.map String.data).map compsL).flatten) []
    simp only [List.nil_append] at hsub
    have hmem := hsub.subset hc
    rcases List.mem_flatten.mp hmem with ⟨g, hg, hcg⟩
    rcases List.mem_map.mp hg with ⟨l, _, rfl⟩
    exact compsL_mem_props l c hcg
  rw [urlJoinPath_absolute u elems h0,
    goPathJoinL_rooted _ _ hne h0]
  split
  · rw [compsL_append_slash_nil, compsL_cons_slash, compsL_joinSlashL _ hout, hflat]
  · rw [compsL_cons_slash, compsL_joinSlashL _ hout, hflat]

/-- An absolute-base join never has two consecutive slashes in the
resulting path. -/
theorem urlJoinPath_noDS (u : URL) (elems : List String)
    (h0 : u.path.data.head? = some '/') :
    NoDS (urlJoinPath u elems).path.data := by
  have hne : u.path.data ≠ [] := by
    intro hcontra
    rw [hcontra] at h0
    simp at h0
  have hout : ∀ c ∈ (((u.path.data :: elems.map String.data).map compsL).flatten.foldl
      (cleanStackStep true) []), c ≠ [] ∧ '/' ∉ c := by
    intro c hc
    have hsub := cleanFold_sublist true
      (((u.path.data :: elems.map String.data).map compsL).flatten) []
    simp only [List.nil_append] at hsub
    have hmem := hsub.subset hc
    rcases List.mem_flatten.mp hmem with ⟨g, hg, hcg⟩
    rcases List.mem_map.mp hg with ⟨l, _, rfl⟩
    exact compsL_mem_props l c hcg
  rw [urlJoinPath_absolute u elems h0, goPathJoinL_rooted _ _ hne h0]
  split
  · rename_i hcond
    rw [NoDS, List.chain'_append]
    refine ⟨rooted_joinSlashL_noDS _ hout, List.chain'_singleton '/', ?_⟩
    intro x hx y hy hcontra
    have hx' := Option.mem_def.mp hx
    rw [hcontra.1] at hx'
    exact hcond.2 hx'
  · exact rooted_joinSlashL_noDS _ hout

/-- Joining components that are all plain (no `.`/`..`) onto a base path
in slash-normal form appends them verbatim, in order. -/
theorem urlJoinPath_plain (u : URL) (elems : List String) (bs : List (List Char))
    (hbs : u.path.data = '/' :: joinSlashL bs)
    (hprops : ∀ c ∈ bs, c ≠ [] ∧ '/' ∉ c ∧ NotDots c)
    (helems : ∀ c ∈ (elems.map (fun s => compsL s.data)).flatten, NotDots c)
    (hlast : ((elems.map String.data).getLastD u.path.data).getLast? ≠ some '/') :
    (urlJoinPath u elems).path.data =
      '/' :: joinSlashL (bs ++ (elems.map (fun s => compsL s.data)).flatten) := by
  have h0 : u.path.data.head? = some '/' := by rw [hbs]; rfl
  have hne : u.path.data ≠ [] := by rw [hbs]; simp
  have hbase : compsL u.path.data = bs := by
    rw [hbs, compsL_cons_slash]
    exact compsL_joinSlashL bs (fun c hc => ⟨(hprops c hc).1, (hprops c hc).2.1⟩)
  have hflat : ((u.path.data :: elems.map String.data).map compsL).flatten =
      bs ++ (elems.map (fun s => compsL s.data)).flatten := by
    simp only [List.map_cons, List.flatten_cons, hbase]
    simp [List.map_map, Function.comp_def]
  rw [urlJoinPath_absolute u elems h0, if_neg (fun hcond => hlast hcond.1),
    goPathJoinL_rooted _ _ hne h0, hflat,
    cleanFold_plain true _ (fun c hc => by
      rcases List.mem_append.mp hc with hmem | hmem
      · exact (hprops c hmem).2.2
      · exact helems c hmem) []]
  rfl

/-! ## Decimal rendering produces a plain path segment -/

theorem itoaDigitsCore_chars (fuel : Nat) :
    ∀ n, ∀ ch ∈ itoaDigitsCore fuel n, ch ≠ '/' ∧ ch ≠ '.' := by
  induction fuel with
  | zero => intro n ch hch; simp [itoaDigitsCore] at hch
  | succ fuel ih =>
    intro n ch hch
    rw [itoaDigitsCore] at hch
    by_cases h : n < 10
    · rw [if_pos h, List.mem_singleton] at hch
      subst hch
      interval_cases n <;> exact ⟨by decide, by decide⟩
    · rw [if_neg h] at hch
      rcases List.mem_append.mp hch with hmem | hmem
      · exact ih (n / 10) ch hmem
      · rw [List.mem_singleton] at hmem
        subst hmem
        have h10 : n % 10 < 10 := Nat.mod_lt n (by omega)
        set m := n % 10 with hm
        clear_value m
        interval_cases m <;> exact ⟨by decide, by decide⟩

theorem itoaDigits_chars (n : Nat) :
    ∀ ch ∈ itoaDigits n, ch ≠ '/' ∧ ch ≠ '.' :=
  itoaDigitsCore_chars (n + 1) n

theorem itoaDigits_ne_nil (n : Nat) : itoaDigits n ≠ [] := by
  rw [itoaDigits, itoaDigitsCore]
  split <;> simp

theorem itoa_plain (i : Int) :
    (itoa i).data ≠ [] ∧ '/' ∉ (itoa i).data ∧ NotDots (itoa i).data := by
  rw [itoa]
  split
  · refine ⟨by simp, ?_, ?_, ?_⟩
    · intro hmem
      rcases List.mem_cons.mp hmem with hbad | hdig
      · exact absurd hbad (by decide)
      · exact (itoaDigits_chars _ '/' hdig).1 rfl
    · intro hcontra
      have h2 := congrArg List.head? hcontra
      simp at h2
    · intro hcontra
      have h2 := congrArg List.head? hcontra
      simp at h2
  · refine ⟨itoaDigits_ne_nil _, ?_, ?_, ?_⟩
    · intro hmem
      exact (itoaDigits_chars _ '/' hmem).1 rfl
    · intro hcontra
      have hc2 : itoaDigits i.natAbs = ['.'] := hcontra
      have : ('.' : Char) ∈ itoaDigits i.natAbs := by rw [hc2]; simp
      exact (itoaDigits_chars _ '.' this).2 rfl
    · intro hcontra
      have hc2 : itoaDigits i.natAbs = ['.', '.'] := hcontra
      have : ('.' : Char) ∈ itoaDigits i.natAbs := by rw [hc2]; simp
      exact (itoaDigits_chars _ '.' this).2 rfl

/-! ## The fixed base address always parses -/

theorem parseURL_base :
    parseURL "https://healthchecks.io/api/v3" =
      some { scheme := "https", host := "healthchecks.io", path := "/api/v3",
             query := [] } := by
  decide

theorem buildAddress_newClient (k : String) (slugs : List String) :
    buildAddress (newClient k) slugs =
      .ok (urlJoinPath
        { scheme := "https", host := "healthchecks.io", path := "/api/v3",
          query := [] } slugs) := by
  rw [buildAddress, show (newClient k).baseURL = "https://healthchecks.io/api/v3" from rfl,
    parseURL_base]

/-! ## Claim theorems -/

/-- C9: for every client produced by `NewClient` (whose base address is
the fixed constant `https://healthchecks.io/api/v3`) and every sequence
of path segments, `buildAddress` never returns an error — the base-URL
parse-failure branch, and hence the address-construction error return in
every Resource Operation, is unreachable. -/
theorem c9_buildAddress_never_errors (k : String) (slugs : List String) :
    ∃ u, buildAddress (newClient k) slugs = Except.ok u :=
  ⟨_, buildAddress_newClient k slugs⟩

/-- C5: for every sequence of path segments joined by `buildAddress` onto
the configured base address, the resulting address path never contains a
double slash at a segment boundary, its components are (in order) a
subsequence of the base components followed by the given segments'
components — segment order is preserved, components are never reordered —
and when no segment component is `.` or `..` the components are exactly
the base components followed by every given segment component in order. -/
theorem c5_buildAddress_shape (k : String) (slugs : List String) :
    buildAddress (newClient k) slugs =
      Except.ok (urlJoinPath
        { scheme := "https", host := "healthchecks.io", path := "/api/v3",
          query := [] } slugs) ∧
    NoDS (urlJoinPath
      { scheme := "https", host := "healthchecks.io", path := "/api/v3",
        query := [] } slugs).path.data ∧
    List.Sublist
      (compsL (urlJoinPath
        { scheme := "https", host := "healthchecks.io", path := "/api/v3",
          query := [] } slugs).path.data)
      (compsL ("/api/v3" : String).data ++
        (slugs.map (fun s => compsL s.data)).flatten) ∧
    ((∀ c ∈ (slugs.map (fun s => compsL s.data)).flatten, NotDots c) →
      compsL (urlJoinPath
        { scheme := "https", host := "healthchecks.io", path := "/api/v3",
          query := [] } slugs).path.data =
        compsL ("/api/v3" : String).data ++
          (slugs.map (fun s => compsL s.data)).flatten) := by
  have h0 : (("/api/v3" : String)).data.head? = some '/' := by decide
  refine ⟨buildAddress_newClient k slugs, urlJoinPath_noDS _ slugs h0, ?_, ?_⟩
  · rw [urlJoinPath_comps _ slugs h0]
    have hsub := cleanFold_sublist true
      (compsL ("/api/v3" : String).data ++ (slugs.map (fun s => compsL s.data)).flatten) []
    simpa using hsub
  · intro hplain
    rw [urlJoinPath_comps _ slugs h0,
      cleanFold_plain true _ (fun c hc => by
        rcases List.mem_append.mp hc with hmem | hmem
        · have hbase : compsL ("/api/v3" : String).data =
              [['a', 'p', 'i'], ['v', '3']] := by decide
          rw [hbase] at hmem
          rcases List.mem_cons.mp hmem with rfl | hmem
          · exact ⟨by decide, by decide⟩
          · rcases List.mem_cons.mp hmem with rfl | hmem
            · exact ⟨by decide, by decide⟩
            · simp at hmem
        · exact hplain c hmem) []]
    rfl

/-- Witness for C5 at the segment list of `PauseCheck`: with plain
segments the path is clean and appends every segment in order. -/
theorem c5_witness :
    NoDS (urlJoinPath
      { scheme := "https", host := "healthchecks.io", path := "/api/v3",
        query := [] } ["/checks/", "abc", "/pause"]).path.data ∧
    compsL (urlJoinPath
      { scheme := "https", host := "healthchecks.io", path := "/api/v3",
        query := [] } ["/checks/", "abc", "/pause"]).path.data =
      compsL ("/api/v3" : String).data ++
        ((["/checks/", "abc", "/pause"] : List String).map
          (fun s => compsL s.data)).flatten :=
  ⟨(c5_buildAddress_shape "k" ["/checks/", "abc", "/pause"]).2.1,
    (c5_buildAddress_shape "k" ["/checks/", "abc", "/pause"]).2.2.2 (by decide)⟩

/-- C10: `GetPingBody` accepts every integer `n` without validation —
zero and negative included: for every `n` it builds (successfully) the
GET request for `/checks/{uuid}/pings/{decimal n}/body` under the v3
base, with no local rejection of non-positive ping numbers. -/
theorem c10_getPingBody_accepts_all (k uuid : String) (n : Int)
    (huuid : uuid.data ≠ [] ∧ '/' ∉ uuid.data ∧ NotDots uuid.data) :
    getPingBodyRequest (newClient k) uuid n =
      Except.ok
        { method := "GET",
          url := { scheme := "https", host := "healthchecks.io",
                   path := "/api/v3/checks/" ++ uuid ++ "/pings/" ++ itoa n ++ "/body",
                   query := [] },
          headers := [("X-Api-Key", k)], body := none } := by
  rw [getPingBodyRequest, buildAddress_newClient]
  have hplain := itoa_plain n
  have hpath : (urlJoinPath
      { scheme := "https", host := "healthchecks.io", path := "/api/v3", query := [] }
      ["/checks/", uuid, "/pings/", itoa n, "/body"]).path =
      "/api/v3/checks/" ++ uuid ++ "/pings/" ++ itoa n ++ "/body" := by
    have hcomps : ((["/checks/", uuid, "/pings/", itoa n, "/body"] : List String).map
        (fun s => compsL s.data)).flatten =
        [['c', 'h', 'e', 'c', 'k', 's'], uuid.data, ['p', 'i', 'n', 'g', 's'],
          (itoa n).data, ['b', 'o', 'd', 'y']] := by
      have h1 : compsL ("/checks/" : String).data = [['c', 'h', 'e', 'c', 'k', 's']] := by
        decide
      have h2 : compsL uuid.data = [uuid.data] :=
        compsL_of_no_slash uuid.data huuid.1 huuid.2.1
      have h3 : compsL ("/pings/" : String).data = [['p', 'i', 'n', 'g', 's']] := by decide
      have h4 : compsL (itoa n).data = [(itoa n).data] :=
        compsL_of_no_slash (itoa n).data hplain.1 hplain.2.1
      have h5 : compsL ("/body" : String).data = [['b', 'o', 'd', 'y']] := by decide
      simp [h1, h2, h3, h4, h5]
    have hjoin := urlJoinPath_plain
      { scheme := "https", host := "healthchecks.io", path := "/api/v3", query := [] }
      ["/checks/", uuid, "/pings/", itoa n, "/body"]
      [['a', 'p', 'i'], ['v', '3']]
      (by decide)
      (by decide)
      (by
        rw [hcomps]
        intro c hc
        rcases List.mem_cons.mp hc with rfl | hc
        · exact ⟨by decide, by decide⟩
        · rcases List.mem_cons.mp hc with rfl | hc
          · exact huuid.2.2
          · rcases List.mem_cons.mp hc with rfl | hc
            · exact ⟨by decide, by decide⟩
            · rcases List.mem_cons.mp hc with rfl | hc
              · exact hplain.2.2
              · rcases List.mem_cons.mp hc with rfl | hc
                · exact ⟨by decide, by decide⟩
                · simp at hc)
      (by
        simp only [List.map_cons, List.map_nil, List.getLastD_cons,
          List.getLastD_nil]
        decide)
    apply String.ext
    rw [hjoin, hcomps]
    simp [joinSlashL, String.data_append, List.append_assoc]
  have hrest : (urlJoinPath
      { scheme := "https", host := "healthchecks.io", path := "/api/v3", query := [] }
      ["/checks/", uuid, "/pings/", itoa n, "/body"]).scheme = "https" ∧
      (urlJoinPath
        { scheme := "https", host := "healthchecks.io", path := "/api/v3", query := [] }
        ["/checks/", uuid, "/pings/", itoa n, "/body"]).host = "healthchecks.io" ∧
      (urlJoinPath
        { scheme := "https", host := "healthchecks.io", path := "/api/v3", query := [] }
        ["/checks/", uuid, "/pings/", itoa n, "/body"]).query = [] :=
    ⟨rfl, rfl, rfl⟩
  cases hurl : urlJoinPath
      { scheme := "https", host := "healthchecks.io", path := "/api/v3", query := [] }
      ["/checks/", uuid, "/pings/", itoa n, "/body"] with
  | mk s h p q =>
    rw [hurl] at hpath hrest
    simp at hpath hrest
    simp [hpath, hrest.1, hrest.2.1, hrest.2.2, newClient]

/-- Witness for C10 at a negative ping number. -/
theorem c10_witness :
    getPingBodyRequest (newClient "k") "abc" (-7) =
      Except.ok
        { method := "GET",
          url := { scheme := "https", host := "healthchecks.io",
                   path := "/api/v3/checks/abc/pings/-7/body", query := [] },
          headers := [("X-Api-Key", "k")], body := none } := by
  rw [c10_getPingBody_accepts_all "k" "abc" (-7) (by decide)]
  rfl

/-- C7: for a base ping address in slash-normal form, the `Ping`
operation with no option sends to the unmodified parsed address, with
`WithStart` to the address with the fixed `/start` suffix appended, and
with `WithFail` to the address with the fixed `/fail` suffix appended. -/
theorem c7_ping_address_variants (k pingURL body : String) (u : URL)
    (bs : List (List Char))
    (hparse : parseURL pingURL = some u)
    (hbs0 : bs ≠ [])
    (hpath : u.path.data = '/' :: joinSlashL bs)
    (hbs : ∀ c ∈ bs, c ≠ [] ∧ '/' ∉ c ∧ NotDots c) :
    pingRequest (newClient k) pingURL body [] =
      Except.ok
        { method := "POST", url := u,
          headers := [("User-Agent", "go-healthchecks-client")], body := some body } ∧
    pingRequest (newClient k) pingURL body [withStart] =
      Except.ok
        { method := "POST", url := { u with path := u.path ++ "/start" },
          headers := [("User-Agent", "go-healthchecks-client")], body := some body } ∧
    pingRequest (newClient k) pingURL body [withFail] =
      Except.ok
        { method := "POST", url := { u with path := u.path ++ "/fail" },
          headers := [("User-Agent", "go-healthchecks-client")], body := some body } := by
  refine ⟨?_, ?_, ?_⟩
  · rw [pingRequest, hparse]
    rfl
  · rw [pingRequest, hparse]
    have hjoin := urlJoinPath_plain u ["/start"] bs hpath
      (fun c hc => hbs c hc)
      (by
        intro c hc
        simp only [List.map_cons, List.map_nil, List.flatten_cons, List.flatten_nil,
          List.append_nil] at hc
        have hcs : compsL (("/start" : String)).data = [['s', 't', 'a', 'r', 't']] := by
          decide
        rw [hcs, List.mem_singleton] at hc
        subst hc
        exact ⟨by decide, by decide⟩)
      (by
        simp only [List.map_cons, List.map_nil, List.getLastD_cons, List.getLastD_nil]
        decide)
    show Except.ok
        ({ method := "POST", url := List.foldl (fun a f => f a) u [withStart],
           headers := [("User-Agent", "go-healthchecks-client")],
           body := some body } : Request) = _
    have hurl : (List.foldl (fun a f => f a) u [withStart]) =
        { u with path := u.path ++ "/start" } := by
      simp only [List.foldl_cons, List.foldl_nil, withStart]
      refine URL.ext ?_ ?_ ?_ ?_
      · rfl
      · rfl
      · apply String.ext
        rw [hjoin]
        have hcs : ((["/start"] : List String).map (fun s => compsL s.data)).flatten =
            [['s', 't', 'a', 'r', 't']] := by decide
        rw [hcs, joinSlashL_append_single bs _ hbs0, String.data_append, hpath,
          show ("/start" : String).data = ['/', 's', 't', 'a', 'r', 't'] from rfl]
        simp
      · rfl
    rw [hurl]
  · rw [pingRequest, hparse]
    have hjoin := urlJoinPath_plain u ["/fail"] bs hpath
      (fun c hc => hbs c hc)
      (by
        intro c hc
        simp only [List.map_cons, List.map_nil, List.flatten_cons, List.flatten_nil,
          List.append_nil] at hc
        have hcs : compsL (("/fail" : String)).data = [['f', 'a', 'i', 'l']] := by decide
        rw [hcs, List.mem_singleton] at hc
        subst hc
        exact ⟨by decide, by decide⟩)
      (by
        simp only [List.map_cons, List.map_nil, List.getLastD_cons, List.getLastD_nil]
        decide)
    show Except.ok
        ({ method := "POST", url := List.foldl (fun a f => f a) u [withFail],
           headers := [("User-Agent", "go-healthchecks-client")],
           body := some body } : Request) = _
    have hurl : (List.foldl (fun a f => f a) u [withFail]) =
        { u with path := u.path ++ "/fail" } := by
      simp only [List.foldl_cons, List.foldl_nil, withFail]
      refine URL.ext ?_ ?_ ?_ ?_
      · rfl
      · rfl
      · apply String.ext
        rw [hjoin]
        have hcs : ((["/fail"] : List String).map (fun s => compsL s.data)).flatten =
            [['f', 'a', 'i', 'l']] := by decide
        rw [hcs, joinSlashL_append_single bs _ hbs0, String.data_append, hpath,
          show ("/fail" : String).data = ['/', 'f', 'a', 'i', 'l'] from rfl]
        simp
      · rfl
    rw [hurl]

/-- Witness for C7 at a concrete ping URL. -/
theorem c7_witness :
    pingRequest (newClient "k") "https://hc-ping.com/u1" "hi" [] =
      Except.ok
        { method := "POST",
          url := { scheme := "https", host := "hc-ping.com", path := "/u1", query := [] },
          headers := [("User-Agent", "go-healthchecks-client")], body := some "hi" } ∧
    pingRequest (newClient "k") "https://hc-ping.com/u1" "hi" [withStart] =
      Except.ok
        { method := "POST",
          url := { scheme := "https", host := "hc-ping.com", path := "/u1/start", query := [] },
          headers := [("User-Agent", "go-healthchecks-client")], body := some "hi" } ∧
    pingRequest (newClient "k") "https://hc-ping.com/u1" "hi" [withFail] =
      Except.ok
        { method := "POST",
          url := { scheme := "https", host := "hc-ping.com", path := "/u1/fail", query := [] },
          headers := [("User-Agent", "go-healthchecks-client")], body := some "hi" } := by
  obtain ⟨h1, h2, h3⟩ := c7_ping_address_variants "k" "https://hc-ping.com/u1" "hi"
    { scheme := "https", host := "hc-ping.com", path := "/u1", query := [] }
    [['u', '1']] (by decide) (by decide) (by decide)
    (by
      intro c hc
      rw [List.mem_singleton] at hc
      subst hc
      exact ⟨by decide, by decide, by decide, by decide⟩)
  exact ⟨h1, h2.trans (by rfl), h3.trans (by rfl)⟩

/-- C6: in the queries built by `GetChecks` and `GetFlips`, a parameter
whose value is the empty string (`slug`, `tags`) or a non-positive
number (`seconds`, `start`, `end`) is omitted — no pair with that key
appears in the built address's query — and a parameter with a non-empty
/ positive value is included with that value. -/
theorem c6_query_param_omission (p1 : GetChecks) (p2 : GetFlipsRequest) :
    ((p1.Slug = "" → ∀ v, ("slug", v) ∉ getChecksQuery p1) ∧
      (p1.Slug ≠ "" → ("slug", p1.Slug) ∈ getChecksQuery p1)) ∧
    ((p1.Tags = "" → ∀ v, ("tags", v) ∉ getChecksQuery p1) ∧
      (p1.Tags ≠ "" → ("tags", p1.Tags) ∈ getChecksQuery p1)) ∧
    ((p2.Seconds ≤ 0 → ∀ v, ("seconds", v) ∉ getFlipsQuery p2) ∧
      (p2.Seconds > 0 → ("seconds", itoa p2.Seconds) ∈ getFlipsQuery p2)) ∧
    ((p2.Start ≤ 0 → ∀ v, ("start", v) ∉ getFlipsQuery p2) ∧
      (p2.Start > 0 → ("start", itoa p2.Start) ∈ getFlipsQuery p2)) ∧
    ((p2.«End» ≤ 0 → ∀ v, ("end", v) ∉ getFlipsQuery p2) ∧
      (p2.«End» > 0 → ("end", itoa p2.«End») ∈ getFlipsQuery p2)) := by
  refine ⟨⟨?_, ?_⟩, ⟨?_, ?_⟩, ⟨?_, ?_⟩, ⟨?_, ?_⟩, ⟨?_, ?_⟩⟩
  · intro h v
    simp [getChecksQuery, h]
  · intro h
    simp [getChecksQuery, h]
  · intro h v
    simp [getChecksQuery, h]
  · intro h
    simp [getChecksQuery, h]
  · intro h v
    have h' : ¬p2.Seconds > 0 := by omega
    simp [getFlipsQuery, h']
  · intro h
    simp [getFlipsQuery, h]
  · intro h v
    have h' : ¬p2.Start > 0 := by omega
    simp [getFlipsQuery, h']
  · intro h
    simp [getFlipsQuery, h]
  · intro h v
    have h' : ¬p2.«End» > 0 := by omega
    simp [getFlipsQuery, h']
  · intro h
    simp [getFlipsQuery, h]

/-- Witness for C6: an empty slug and non-positive seconds/end are
omitted; a set tags value and positive start are included. -/
theorem c6_witness :
    (("slug", "x") ∉ getChecksQuery { Slug := "", Tags := "t" }) ∧
    (("tags", "t") ∈ getChecksQuery { Slug := "", Tags := "t" }) ∧
    (("seconds", "0") ∉ getFlipsQuery { Seconds := 0, Start := 5, «End» := -3 }) ∧
    (("start", itoa 5) ∈ getFlipsQuery { Seconds := 0, Start := 5, «End» := -3 }) ∧
    (("end", "-3") ∉ getFlipsQuery { Seconds := 0, Start := 5, «End» := -3 }) :=
  ⟨((c6_query_param_omission { Slug := "", Tags := "t" }
        { Seconds := 0, Start := 5, «End» := -3 }).1.1 rfl "x"),
    ((c6_query_param_omission { Slug := "", Tags := "t" }
        { Seconds := 0, Start := 5, «End» := -3 }).2.1.2 (by decide)),
    ((c6_query_param_omission { Slug := "", Tags := "t" }
        { Seconds := 0, Start := 5, «End» := -3 }).2.2.1.1 (by decide) "0"),
    ((c6_query_param_omission { Slug := "", Tags := "t" }
        { Seconds := 0, Start := 5, «End» := -3 }).2.2.2.1.2 (by decide)),
    ((c6_query_param_omission { Slug := "", Tags := "t" }
        { Seconds := 0, Start := 5, «End» := -3 }).2.2.2.2.1 (by decide) "-3")⟩

/-- The retry loop under an always-failing transport: one invocation per
remaining retry plus the current attempt, failure at the end, and the
exponential backoff waits in attempt order. -/
theorem retryGo_all_fail (pol : RetryPolicy) (transport : Nat → Bool)
    (hfail : ∀ i, transport i = false) :
    ∀ rem att, retryGo pol transport att rem =
      (rem + 1, false, (List.range' att rem).map (backoffWait pol)) := by
  intro rem
  induction rem with
  | zero => intro att; simp [retryGo, hfail]
  | succ rem ih =>
    intro att
    rw [retryGo, hfail att]
    simp only [Bool.false_eq_true, if_false, ih (att + 1)]
    simp [List.range']

/-- C4: with the retry policy configured at client construction
(`RetryMax = 5`, waits 500ms..4s), a transport failing transiently on
every attempt makes the operation fail only after exactly
max-attempts = `RetryMax + 1` transport invocations, with exponentially
increasing waits between attempts, each bounded below by the policy
minimum and above by the policy maximum. -/
theorem c4_retry_exhaustion (k : String) (transport : Nat → Bool)
    (hfail : ∀ i, transport i = false) :
    (retryExec (newClient k).retry transport).1 = (newClient k).retry.retryMax + 1 ∧
    (retryExec (newClient k).retry transport).2.1 = false ∧
    (retryExec (newClient k).retry transport).2.2 =
      (List.range (newClient k).retry.retryMax).map (backoffWait (newClient k).retry) ∧
    (∀ w ∈ (retryExec (newClient k).retry transport).2.2,
      (newClient k).retry.retryWaitMin ≤ w ∧ w ≤ (newClient k).retry.retryWaitMax) ∧
    (retryExec (newClient k).retry transport).2.2.Chain' (· ≤ ·) := by
  have hrun : retryExec (newClient k).retry transport =
      ((newClient k).retry.retryMax + 1, false,
        (List.range' 0 (newClient k).retry.retryMax).map
          (backoffWait (newClient k).retry)) := by
    rw [retryExec]
    exact retryGo_all_fail _ transport hfail _ 0
  have hpol : (newClient k).retry =
      { retryMax := 5, retryWaitMin := 500, retryWaitMax := 4000 } := rfl
  have hlist : (List.range' 0 (newClient k).retry.retryMax).map
      (backoffWait (newClient k).retry) = [500, 1000, 2000, 4000, 4000] := by
    rw [hpol]
    decide
  refine ⟨by rw [hrun], by rw [hrun], ?_, ?_, ?_⟩
  · rw [hrun]
    simp [List.range_eq_range']
  · rw [hrun]
    simp only [hlist]
    rw [hpol]
    decide
  · rw [hrun]
    simp only [hlist]
    norm_num [List.chain'_cons, List.chain'_singleton]

/-- Witness for C4: the always-failing transport is invoked exactly six
times under the constructed policy, with waits 500, 1000, 2000, 4000,
4000 milliseconds. -/
theorem c4_witness :
    (retryExec (newClient "key").retry (fun _ => false)).1 = 6 ∧
    (retryExec (newClient "key").retry (fun _ => false)).2.1 = false ∧
    (retryExec (newClient "key").retry (fun _ => false)).2.2 =
      [500, 1000, 2000, 4000, 4000] := by
  obtain ⟨h1, h2, h3, _, _⟩ := c4_retry_exhaustion "key" (fun _ => false) (fun _ => rfl)
  refine ⟨h1.trans rfl, h2, h3.trans ?_⟩
  rw [show (newClient "key").retry =
    { retryMax := 5, retryWaitMin := 500, retryWaitMax := 4000 } from rfl]
  decide

/-- C1 counterexample: the request `Ping` builds has a body but carries
neither the authentication header (`X-Api-Key`) nor any content-type
marker — only a `User-Agent` header — refuting the claim for the `Ping`
operation. -/
theorem c1_counterexample :
    pingRequest (newClient "key") "https://hc-ping.com/u1" "hi" [] =
      Except.ok
        { method := "POST",
          url := { scheme := "https", host := "hc-ping.com", path := "/u1", query := [] },
          headers := [("User-Agent", "go-healthchecks-client")], body := some "hi" } ∧
    ([("User-Agent", "go-healthchecks-client")].all
      (fun h => h.1 ≠ "X-Api-Key" ∧ h.1 ≠ "Content-Type")) = true ∧
    (some "hi").isSome = true := by
  refine ⟨?_, by decide, rfl⟩
  rw [pingRequest, show parseURL "https://hc-ping.com/u1" =
    some { scheme := "https", host := "hc-ping.com", path := "/u1", query := [] }
    from by decide]
  rfl

/-- C1 (amended): every operation except `Ping` sends the `X-Api-Key`
header carrying the client credential; the two operations with a JSON
body (`CreateCheck`, `UpdateCheck`) also send
`Content-Type: application/json`; `Ping`, despite sending a body, sets
only a fixed `User-Agent` header — no authentication header and no
content-type marker. -/
theorem c1_headers_amended (k pURL pbody identifier uuid : String) (n : Int)
    (chk : CreateCheck) (upd : UpdateCheck) (p1 : GetChecks) (p2 : GetFlipsRequest)
    (opts : List PingOption) :
    (∀ r, createCheckRequest (newClient k) chk = Except.ok r →
      ("X-Api-Key", k) ∈ r.headers ∧ ("Content-Type", "application/json") ∈ r.headers ∧
        r.body.isSome) ∧
    (∀ r, getChecksRequest (newClient k) p1 = Except.ok r →
      ("X-Api-Key", k) ∈ r.headers ∧ r.body = none) ∧
    (∀ r, getCheckRequest (newClient k) identifier = Except.ok r →
      ("X-Api-Key", k) ∈ r.headers ∧ r.body = none) ∧
    (∀ r, updateCheckRequest (newClient k) uuid upd = Except.ok r →
      ("X-Api-Key", k) ∈ r.headers ∧ ("Content-Type", "application/json") ∈ r.headers ∧
        r.body.isSome) ∧
    (∀ r, deleteCheckRequest (newClient k) uuid = Except.ok r →
      ("X-Api-Key", k) ∈ r.headers ∧ r.body = none) ∧
    (∀ r, pauseCheckRequest (newClient k) uuid = Except.ok r →
      ("X-Api-Key", k) ∈ r.headers ∧ r.body = none) ∧
    (∀ r, resumeCheckRequest (newClient k) uuid = Except.ok r →
      ("X-Api-Key", k) ∈ r.headers ∧ r.body = none) ∧
    (∀ r, getPingsRequest (newClient k) identifier = Except.ok r →
      ("X-Api-Key", k) ∈ r.headers ∧ r.body = none) ∧
    (∀ r, getPingBodyRequest (newClient k) uuid n = Except.ok r →
      ("X-Api-Key", k) ∈ r.headers ∧ r.body = none) ∧
    (∀ r, getFlipsRequest (newClient k) identifier p2 = Except.ok r →
      ("X-Api-Key", k) ∈ r.headers ∧ r.body = none) ∧
    (∀ r, pingRequest (newClient k) pURL pbody opts = Except.ok r →
      r.headers = [("User-Agent", "go-healthchecks-client")] ∧ r.body = some pbody) := by
  refine ⟨?_, ?_, ?_, ?_, ?_, ?_, ?_, ?_, ?_, ?_, ?_⟩
  · intro r hr
    rw [createCheckRequest, buildAddress_newClient] at hr
    obtain rfl : _ = r := (Except.ok.injEq _ _).mp hr
    exact ⟨by simp [newClient], by simp, rfl⟩
  · intro r hr
    rw [getChecksRequest, buildAddress_newClient] at hr
    obtain rfl : _ = r := (Except.ok.injEq _ _).mp hr
    exact ⟨by simp [newClient], rfl⟩
  · intro r hr
    rw [getCheckRequest, buildAddress_newClient] at hr
    obtain rfl : _ = r := (Except.ok.injEq _ _).mp hr
    exact ⟨by simp [newClient], rfl⟩
  · intro r hr
    rw [updateCheckRequest, buildAddress_newClient] at hr
    obtain rfl : _ = r := (Except.ok.injEq _ _).mp hr
    exact ⟨by simp [newClient], by simp, rfl⟩
  · intro r hr
    rw [deleteCheckRequest, buildAddress_newClient] at hr
    obtain rfl : _ = r := (Except.ok.injEq _ _).mp hr
    exact ⟨by simp [newClient], rfl⟩
  · intro r hr
    rw [pauseCheckRequest, buildAddress_newClient] at hr
    obtain rfl : _ = r := (Except.ok.injEq _ _).mp hr
    exact ⟨by simp [newClient], rfl⟩
  · intro r hr
    rw [resumeCheckRequest, buildAddress_newClient] at hr
    obtain rfl : _ = r := (Except.ok.injEq _ _).mp hr
    exact ⟨by simp [newClient], rfl⟩
  · intro r hr
    rw [getPingsRequest, buildAddress_newClient] at hr
    obtain rfl : _ = r := (Except.ok.injEq _ _).mp hr
    exact ⟨by simp [newClient], rfl⟩
  · intro r hr
    rw [getPingBodyRequest, buildAddress_newClient] at hr
    obtain rfl : _ = r := (Except.ok.injEq _ _).mp hr
    exact ⟨by simp [newClient], rfl⟩
  · intro r hr
    rw [getFlipsRequest, buildAddress_newClient] at hr
    obtain rfl : _ = r := (Except.ok.injEq _ _).mp hr
    exact ⟨by simp [newClient], rfl⟩
  · intro r hr
    rw [pingRequest] at hr
    cases hp : parseURL pURL with
    | none => rw [hp] at hr; exact absurd hr (by simp)
    | some addr0 =>
      rw [hp] at hr
      obtain rfl : _ = r := (Except.ok.injEq _ _).mp hr
      exact ⟨rfl, rfl⟩

/-- Witness for C1 (amended) at concrete inputs: `GetCheck` carries the
credential header with no body, and `Ping` carries only the fixed
`User-Agent`. -/
theorem c1_witness :
    (("X-Api-Key", "key") ∈
      [("X-Api-Key", "key")] ∧ (none : Option String) = none) ∧
    ([("User-Agent", "go-healthchecks-client")] =
      [("User-Agent", "go-healthchecks-client")] ∧ some "hi" = some "hi") := by
  constructor
  · have h := (c1_headers_amended "key" "https://hc-ping.com/u1" "hi" "idf" "u" 1
      { Name := "", Slug := "", Tags := "", Description := "", Timeout := 0, Grace := 0,
        Schedule := "", Timezone := "", ManualResume := false, Methods := "",
        Channels := "", Unique := [], StartKeywords := "", SuccessKeywords := "",
        FailureKeywords := "", FilterSubject := false, FilterBody := false,
        FilterHttpBody := false, FilterDefaultFail := false }
      { Name := "", Slug := "", Tags := "", Description := "", Timeout := 0, Grace := 0,
        Schedule := "", Timezone := "", ManualResume := false, Methods := "",
        Channels := "", StartKeywords := "", SuccessKeywords := "",
        FailureKeywords := "", FilterSubject := false, FilterBody := false,
        FilterHttpBody := false, FilterDefaultFail := false }
      { Slug := "", Tags := "" } { Seconds := 0, Start := 0, «End» := 0 } []).2.2.1
    have h2 := h
      { method := "GET",
        url := urlJoinPath
          { scheme := "https", host := "healthchecks.io", path := "/api/v3", query := [] }
          ["/checks/", "idf"],
        headers := [("X-Api-Key", "key")], body := none }
      (by rw [getCheckRequest, buildAddress_newClient]; rfl)
    exact ⟨h2.1, h2.2⟩
  · have h := (c1_headers_amended "key" "https://hc-ping.com/u1" "hi" "idf" "u" 1
      { Name := "", Slug := "", Tags := "", Description := "", Timeout := 0, Grace := 0,
        Schedule := "", Timezone := "", ManualResume := false, Methods := "",
        Channels := "", Unique := [], StartKeywords := "", SuccessKeywords := "",
        FailureKeywords := "", FilterSubject := false, FilterBody := false,
        FilterHttpBody := false, FilterDefaultFail := false }
      { Name := "", Slug := "", Tags := "", Description := "", Timeout := 0, Grace := 0,
        Schedule := "", Timezone := "", ManualResume := false, Methods := "",
        Channels := "", StartKeywords := "", SuccessKeywords := "",
        FailureKeywords := "", FilterSubject := false, FilterBody := false,
        FilterHttpBody := false, FilterDefaultFail := false }
      { Slug := "", Tags := "" } { Seconds := 0, Start := 0, «End» := 0 } []).2.2.2.2.2.2.2.2.2.2
    have h2 := h
      { method := "POST",
        url := { scheme := "https", host := "hc-ping.com", path := "/u1", query := [] },
        headers := [("User-Agent", "go-healthchecks-client")], body := some "hi" }
      (by
        rw [pingRequest, show parseURL "https://hc-ping.com/u1" =
          some { scheme := "https", host := "hc-ping.com", path := "/u1", query := [] }
          from by decide]
        rfl)
    exact ⟨h2.1, h2.2⟩

/-- C2 counterexample: for the send-ping Resource Operation, a 400
response whose body text (`"x"`, i.e. the JSON document `Json.str "x"`)
does not decode as a Remote Error yields an error embedding the raw body
text — not the empty string the claim requires after a failed Remote
Error decode. -/
theorem c2_counterexample :
    pingHandle 400 (Json.str "x") =
      Except.error (OpErr.statusMismatch 400 ("\"" ++ "x" ++ "\"")) ∧
    (decodeGoError (Json.str "x")).Err = "" ∧
    ("\"" ++ "x" ++ "\"" : String) ≠ ((decodeGoError (Json.str "x")).Err : String) := by
  refine ⟨?_, rfl, by decide⟩
  rfl

/-- C2 (amended): for every Resource Operation except send-ping, a
response status different from the operation's expected success code
yields an error — never a value — embedding the actual status code and
the best-effort Remote Error message, which is the empty string whenever
the body is not a JSON object carrying `error` as a string; send-ping
also errors with the actual status code but embeds the raw body text
instead of the decoded message. -/
theorem c2_status_mismatch (status : Nat) (body : Json) :
    (status ≠ 201 → createCheckHandle status body =
      Except.error (OpErr.statusMismatch status (decodeGoError body).Err)) ∧
    (status ≠ 200 → getChecksHandle status body =
      Except.error (OpErr.statusMismatch status (decodeGoError body).Err)) ∧
    (status ≠ 200 → getCheckHandle status body =
      Except.error (OpErr.statusMismatch status (decodeGoError body).Err)) ∧
    (status ≠ 200 → updateCheckHandle status body =
      Except.error (OpErr.statusMismatch status (decodeGoError body).Err)) ∧
    (status ≠ 200 → deleteCheckHandle status body =
      Except.error (OpErr.statusMismatch status (decodeGoError body).Err)) ∧
    (status ≠ 200 → pauseCheckHandle status body =
      Except.error (OpErr.statusMismatch status (decodeGoError body).Err)) ∧
    (status ≠ 200 → resumeCheckHandle status body =
      Except.error (OpErr.statusMismatch status (decodeGoError body).Err)) ∧
    (status ≠ 200 → getPingsHandle status body =
      Except.error (OpErr.statusMismatch status (decodeGoError body).Err)) ∧
    (status ≠ 200 → getPingBodyHandle status body =
      Except.error (OpErr.statusMismatch status (decodeGoError body).Err)) ∧
    (status ≠ 200 → getFlipsHandle status body =
      Except.error (OpErr.statusMismatch status (decodeGoError body).Err)) ∧
    (status ≠ 200 → pingHandle status body =
      Except.error (OpErr.statusMismatch status (renderJson body))) := by
  refine ⟨?_, ?_, ?_, ?_, ?_, ?_, ?_, ?_, ?_, ?_, ?_⟩ <;> intro h
  · rw [createCheckHandle, if_pos h]
  · rw [getChecksHandle, if_pos h]
  · rw [getCheckHandle, if_pos h]
  · rw [updateCheckHandle, if_pos h]
  · rw [deleteCheckHandle, if_pos h]
  · rw [pauseCheckHandle, if_pos h]
  · rw [resumeCheckHandle, if_pos h]
  · rw [getPingsHandle, if_pos h]
  · rw [getPingBodyHandle, if_pos h]
  · rw [getFlipsHandle, if_pos h]
  · rw [pingHandle, if_pos h]

/-- Witness for C2 (amended): a 404 with a structured error body embeds
404 and the decoded message; an unparseable-as-Remote-Error body embeds
the empty message. -/
theorem c2_witness :
    getCheckHandle 404 (Json.obj [("error", Json.str "X")]) =
      Except.error (OpErr.statusMismatch 404 "X") ∧
    createCheckHandle 500 (Json.str "oops") =
      Except.error (OpErr.statusMismatch 500 "") := by
  constructor
  · have h := (c2_status_mismatch 404 (Json.obj [("error", Json.str "X")])).2.2.1
      (by decide)
    rw [h]
    rfl
  · have h := (c2_status_mismatch 500 (Json.str "oops")).1 (by decide)
    rw [h]
    rfl

/-- C3: when the transport returns the declared success status (201 for
`CreateCheck`, 200 for every other operation) and a well-formed body —
one that decodes as the operation's declared response type — the
operation returns exactly the decoded value; a body that fails to decode
despite the matching status yields a malformed-payload error of a kind
distinct from any status-mismatch error. -/
theorem c3_success_decode (body : Json) :
    (∀ v, decodeCheck body = Except.ok v → createCheckHandle 201 body = Except.ok v) ∧
    (∀ e, decodeCheck body = Except.error e →
      createCheckHandle 201 body = Except.error (OpErr.decodeFailure e)) ∧
    (∀ v, decodeCheckList body = Except.ok v → getChecksHandle 200 body = Except.ok v) ∧
    (∀ e, decodeCheckList body = Except.error e →
      getChecksHandle 200 body = Except.error (OpErr.decodeFailure e)) ∧
    (∀ v, decodeCheck body = Except.ok v → getCheckHandle 200 body = Except.ok v) ∧
    (∀ e, decodeCheck body = Except.error e →
      getCheckHandle 200 body = Except.error (OpErr.decodeFailure e)) ∧
    (∀ v, decodeCheck body = Except.ok v → updateCheckHandle 200 body = Except.ok v) ∧
    (∀ e, decodeCheck body = Except.error e →
      updateCheckHandle 200 body = Except.error (OpErr.decodeFailure e)) ∧
    (∀ v, decodeCheck body = Except.ok v → deleteCheckHandle 200 body = Except.ok v) ∧
    (∀ e, decodeCheck body = Except.error e →
      deleteCheckHandle 200 body = Except.error (OpErr.decodeFailure e)) ∧
    (∀ v, decodeCheck body = Except.ok v → pauseCheckHandle 200 body = Except.ok v) ∧
    (∀ e, decodeCheck body = Except.error e →
      pauseCheckHandle 200 body = Except.error (OpErr.decodeFailure e)) ∧
    (∀ v, decodeCheck body = Except.ok v → resumeCheckHandle 200 body = Except.ok v) ∧
    (∀ e, decodeCheck body = Except.error e →
      resumeCheckHandle 200 body = Except.error (OpErr.decodeFailure e)) ∧
    (∀ v, decodePingList body = Except.ok v → getPingsHandle 200 body = Except.ok v) ∧
    (∀ e, decodePingList body = Except.error e →
      getPingsHandle 200 body = Except.error (OpErr.decodeFailure e)) ∧
    (getPingBodyHandle 200 body = Except.ok (renderJson body)) ∧
    (∀ v, decodeFlipList body = Except.ok v → getFlipsHandle 200 body = Except.ok v) ∧
    (∀ e, decodeFlipList body = Except.error e →
      getFlipsHandle 200 body = Except.error (OpErr.decodeFailure e)) ∧
    (pingHandle 200 body = Except.ok ()) ∧
    (∀ e c m, OpErr.decodeFailure e ≠ OpErr.statusMismatch c m) := by
  refine ⟨?_, ?_, ?_, ?_, ?_, ?_, ?_, ?_, ?_, ?_, ?_, ?_, ?_, ?_, ?_, ?_, ?_, ?_, ?_,
    ?_, ?_⟩
  · intro v hv
    rw [createCheckHandle, if_neg (by decide), hv]
  · intro e he
    rw [createCheckHandle, if_neg (by decide), he]
  · intro v hv
    rw [getChecksHandle, if_neg (by decide), hv]
  · intro e he
    rw [getChecksHandle, if_neg (by decide), he]
  · intro v hv
    rw [getCheckHandle, if_neg (by decide), hv]
  · intro e he
    rw [getCheckHandle, if_neg (by decide), he]
  · intro v hv
    rw [updateCheckHandle, if_neg (by decide), hv]
  · intro e he
    rw [updateCheckHandle, if_neg (by decide), he]
  · intro v hv
    rw [deleteCheckHandle, if_neg (by decide), hv]
  · intro e he
    rw [deleteCheckHandle, if_neg (by decide), he]
  · intro v hv
    rw [pauseCheckHandle, if_neg (by decide), hv]
  · intro e he
    rw [pauseCheckHandle, if_neg (by decide), he]
  · intro v hv
    rw [resumeCheckHandle, if_neg (by decide), hv]
  · intro e he
    rw [resumeCheckHandle, if_neg (by decide), he]
  · intro v hv
    rw [getPingsHandle, if_neg (by decide), hv]
  · intro e he
    rw [getPingsHandle, if_neg (by decide), he]
  · rw [getPingBodyHandle, if_neg (by decide)]
  · intro v hv
    rw [getFlipsHandle, if_neg (by decide), hv]
  · intro e he
    rw [getFlipsHandle, if_neg (by decide), he]
  · rw [pingHandle, if_neg (by decide)]
  · intro e c m hcontra
    exact OpErr.noConfusion hcontra

/-- Witness for C3: an empty-object body decodes to the all-zero `Check`
and `GetCheck` returns exactly it; a non-object body is a decode failure
and yields the distinct malformed-payload error kind, for `CreateCheck`
and `GetPings` alike. -/
theorem c3_witness :
    getCheckHandle 200 (Json.obj []) =
      Except.ok
        { Name := "", Slug := "", Tags := "", Desc := "", Grace := 0, NPings := 0,
          Status := "", Started := false, LastPing := Json.null, NextPing := Json.null,
          ManualResume := false, Methods := "", Subject := "", SubjectFail := "",
          StartKw := "", SuccessKw := "", FailureKw := "", FilterSubject := false,
          FilterBody := false, FilterHTTPBody := false, FilterDefaultFail := false,
          BadgeURL := "", UUID := "", PingURL := "", UpdateURL := "", PauseURL := "",
          ResumeURL := "", Channels := "", Timeout := 0 } ∧
    createCheckHandle 201 (Json.str "oops") =
      Except.error (OpErr.decodeFailure "cannot unmarshal into Check") ∧
    getPingsHandle 200 (Json.str "oops") =
      Except.error (OpErr.decodeFailure "cannot unmarshal into PingListResponse") := by
  refine ⟨?_, ?_, ?_⟩
  · exact (c3_success_decode (Json.obj [])).2.2.2.2.1 _ rfl
  · exact (c3_success_decode (Json.str "oops")).2.1 _ rfl
  · exact
      (c3_success_decode
        (Json.str "oops")).2.2.2.2.2.2.2.2.2.2.2.2.2.2.2.1 _ rfl

/-! ## Round-trip lemmas for the `omitempty` encoding -/

@[simp]
theorem except_bind_ok {ε α β : Type} (a : α) (f : α → Except ε β) :
    (Except.ok a >>= f : Except ε β) = f a := rfl

@[simp]
theorem except_pure_eq {ε α : Type} (a : α) :
    (pure a : Except ε α) = Except.ok a := rfl

@[simp]
theorem jLookup_strField_append (k' : String) (v : String)
    (rest : List (String × Json)) (k : String) :
    jLookup (strField k' v ++ rest) k =
      if k' = k then (if v = "" then jLookup rest k else some (Json.str v))
      else jLookup rest k := by
  by_cases hv : v = "" <;> by_cases hk : k' = k <;> simp [strField, jLookup, hv, hk]

@[simp]
theorem jLookup_intField_append (k' : String) (v : Int)
    (rest : List (String × Json)) (k : String) :
    jLookup (intField k' v ++ rest) k =
      if k' = k then (if v = 0 then jLookup rest k else some (Json.num v))
      else jLookup rest k := by
  by_cases hv : v = 0 <;> by_cases hk : k' = k <;> simp [intField, jLookup, hv, hk]

@[simp]
theorem jLookup_boolField_append (k' : String) (v : Bool)
    (rest : List (String × Json)) (k : String) :
    jLookup (boolField k' v ++ rest) k =
      if k' = k then (if v = false then jLookup rest k else some (Json.bool v))
      else jLookup rest k := by
  by_cases hv : v = false <;> by_cases hk : k' = k <;> simp [boolField, jLookup, hv, hk]

@[simp]
theorem jLookup_strListField_append (k' : String) (v : List String)
    (rest : List (String × Json)) (k : String) :
    jLookup (strListField k' v ++ rest) k =
      if k' = k then (if v = [] then jLookup rest k else some (Json.arr (v.map Json.str)))
      else jLookup rest k := by
  by_cases hv : v = [] <;> by_cases hk : k' = k <;> simp [strListField, jLookup, hv, hk]

@[simp]
theorem jLookup_boolField (k' : String) (v : Bool) (k : String) :
    jLookup (boolField k' v) k =
      if k' = k then (if v = false then none else some (Json.bool v)) else none := by
  by_cases hv : v = false <;> by_cases hk : k' = k <;> simp [boolField, jLookup, hv, hk]

@[simp]
theorem decStr_ite_omit (v : String) :
    decStr (if v = "" then none else some (Json.str v)) = Except.ok v := by
  by_cases hv : v = "" <;> simp [decStr, hv]

@[simp]
theorem decInt_ite_omit (v : Int) :
    decInt (if v = 0 then none else some (Json.num v)) = Except.ok v := by
  by_cases hv : v = 0 <;> simp [decInt, hv]

@[simp]
theorem decBool_ite_omit (v : Bool) :
    decBool (if v = false then none else some (Json.bool v)) = Except.ok v := by
  cases v <;> simp [decBool]

theorem mapM_decStrElem (xs : List String) :
    (xs.map Json.str).mapM decStrElem = Except.ok xs := by
  induction xs with
  | nil => rfl
  | cons a l ih =>
    rw [List.map_cons, List.mapM_cons, ih]
    rfl

@[simp]
theorem decStrList_ite_omit (v : List String) :
    decStrList (if v = [] then none else some (Json.arr (v.map Json.str))) =
      Except.ok v := by
  by_cases hv : v = []
  · simp [decStrList, hv]
  · rw [if_neg hv]
    exact mapM_decStrElem v

/-- C8: decoding the encoding of a `CreateCheck` yields a value equal
field-by-field to the original — the `omitempty` marshalling composed
with the zero-defaulting unmarshalling is the identity on the create
shape. -/
theorem c8_createCheck_roundtrip (c : CreateCheck) :
    decodeCreateCheck (encodeCreateCheck c) = Except.ok c := by
  rcases c with ⟨nm, sl, tg, ds, tm, gr, sc, tz, mr, me, chn, un, skw, sukw, fkw,
    fsj, fb, fhb, fdf⟩
  simp only [encodeCreateCheck]
  simp [decodeCreateCheck, decodeCreateCheckFields, List.append_assoc]

end Healthchecks
